import Mathlib

/-!
Verification of the in-memory flight-reservation processor (`src/main.rs`).

The Rust program is shallowly embedded: `HashMap`s become association
lists, `NaiveDateTime` becomes an `Int` count of seconds since the Unix
epoch produced by a parser for the fixed `YYYY/MM/DD-HH:MM:SS` format,
and each `process_*` handler becomes an executable Lean function.
Handlers that can panic in Rust (`unwrap`, slice-index underflow) return
`Option`, with `none` modelling the panic.
-/

namespace FlightBooking

/-- Association-list lookup, first match wins (models `HashMap::get`). -/
def alookup {κ ν : Type} [DecidableEq κ] : List (κ × ν) → κ → Option ν
  | [], _ => none
  | (k', v') :: rest, k => if k' = k then some v' else alookup rest k

/-- Association-list insert-or-replace (models `HashMap::insert`):
replaces the first entry with the given key, else appends. -/
def aset {κ ν : Type} [DecidableEq κ] : List (κ × ν) → κ → ν → List (κ × ν)
  | [], k, v => [(k, v)]
  | (k', v') :: rest, k, v =>
      if k' = k then (k, v) :: rest else (k', v') :: aset rest k v

/-- Mirror of the Rust `SeatType` enum. -/
inductive SeatType where
  | A
  | B
  | C
  | D
deriving DecidableEq, Repr

/-- Mirror of `SeatType::as_char`. -/
def SeatType.as_char : SeatType → Char
  | .A => 'A'
  | .B => 'B'
  | .C => 'C'
  | .D => 'D'

/-- Mirror of `SeatType::from_char`. -/
def SeatType.from_char (c : Char) : Option SeatType :=
  if c = 'A' then some .A
  else if c = 'B' then some .B
  else if c = 'C' then some .C
  else if c = 'D' then some .D
  else none

/-- Mirror of `SeatType::variants`. -/
def SeatType.variants : List SeatType := [.A, .B, .C, .D]

/-- Mirror of the Rust `SeatClass` struct: `column` is the inclusive upper
row bound of the class, `price` its price. -/
structure SeatClass where
  column : Nat
  price : Nat
deriving DecidableEq, Repr

/-- Mirror of the Rust `Flight` struct. -/
structure Flight where
  flight_id : Nat
  departure_airport : Nat
  arrival_airport : Nat
  departure_time : String
  arrival_time : String
  seat_classes : List SeatClass
deriving DecidableEq, Repr

/-- Accumulator loop of `u32::from_str`: consumes decimal digits,
failing on any non-digit character. -/
def digitsToNatAux : List Char → Nat → Option Nat
  | [], acc => some acc
  | c :: rest, acc =>
      if c.isDigit then digitsToNatAux rest (acc * 10 + (c.toNat - 48)) else none

/-- Model of Rust `str::parse::<u32>`: an optional leading `+`, then at
least one ASCII digit, and the value must fit in 32 bits (Rust reports
overflow as a parse error). -/
def parse_u32 (cs : List Char) : Option Nat :=
  let ds := match cs with
    | '+' :: rest => rest
    | rest => rest
  match ds with
  | [] => none
  | _ => match digitsToNatAux ds 0 with
    | none => none
    | some n => if n < 2 ^ 32 then some n else none

/-- The seat-class scan of `Flight::get_seat_class`: walks the classes in
order, `idx` is the 0-based index of the head, and returns the 1-based
index and price of the first class whose `column` bound covers `row`. -/
def find_seat_class : List SeatClass → Nat → Nat → Option (Nat × Nat)
  | [], _, _ => none
  | sc :: rest, row, idx =>
      if row ≤ sc.column then some (idx + 1, sc.price)
      else find_seat_class rest row (idx + 1)

/-- Mirror of `Flight::get_seat_class`.  The outer `Option` models the
panic of `seat_id.split_at(seat_id.len() - 1)`: it is `none` when the
seat id is empty (the index underflows) or when its last character is
not a single UTF-8 byte (`len - 1` is then not a char boundary); the
inner `Option` is the function's own return value. -/
def get_seat_class (f : Flight) (seat_id : String) : Option (Option (Nat × Nat)) :=
  match seat_id.data.getLast? with
  | none => none
  | some c =>
      if 128 ≤ c.toNat then none
      else some (
        match parse_u32 seat_id.data.dropLast with
        | none => none
        | some row =>
          match SeatType.from_char c with
          | none => none
          | some _ => find_seat_class f.seat_classes row 0)

/-- Mirror of the Rust `Reservation` struct. -/
structure Reservation where
  reservation_id : Nat
  user_id : String
  date : String
  flight_id : Nat
  seat_id : String
  price : Nat
  is_cancelled : Bool
deriving DecidableEq, Repr

/-- The nested occupancy map `date → flight_id → seat_id → bool`. -/
abbrev OccMap := List (String × List (Nat × List (String × Bool)))

/-- Mirror of the Rust `ReservationSystem` struct, with each `HashMap`
replaced by an association list. -/
structure ReservationSystem where
  flights : List (Nat × Flight)
  reservations : List (Nat × Reservation)
  seat_reservations : OccMap
  next_reservation_id : Nat
deriving DecidableEq, Repr

/-- Mirror of `ReservationSystem::new`. -/
def initSystem : ReservationSystem :=
  { flights := [], reservations := [], seat_reservations := [], next_reservation_id := 1 }

/-- Numeric value of an ASCII digit character. -/
def digitVal (c : Char) : Nat := c.toNat - 48

/-- Days in a month of the proleptic Gregorian calendar. -/
def daysInMonth (y m : Nat) : Nat :=
  if m = 2 then
    if y % 4 = 0 ∧ (y % 100 ≠ 0 ∨ y % 400 = 0) then 29 else 28
  else if m = 4 ∨ m = 6 ∨ m = 9 ∨ m = 11 then 30
  else 31

/-- Julian day number of a proleptic Gregorian date (year ≥ 0). -/
def julianDayNumber (y m d : Nat) : Nat :=
  let a := (14 - m) / 12
  let y2 := y + 4800 - a
  let m2 := m + 12 * a - 3
  d + (153 * m2 + 2) / 5 + 365 * y2 + y2 / 4 - y2 / 100 + y2 / 400 - 32045

/-- Seconds since the Unix epoch of a date and daytime. -/
def civilToSeconds (y m d hh mm ss : Nat) : Int :=
  ((julianDayNumber y m d : Int) - 2440588) * 86400 + (hh * 3600 + mm * 60 + ss : Nat)

/-- Model of `NaiveDateTime::parse_from_str(s, "%Y/%m/%d-%H:%M:%S")`:
the instant, as seconds since the Unix epoch, of a timestamp in the
fixed `YYYY/MM/DD-HH:MM:SS` format, or `none` when the string does not
match the format or names an invalid calendar date or daytime. -/
def parseDateTime (s : String) : Option Int :=
  match s.data with
  | [y1, y2, y3, y4, '/', m1, m2, '/', d1, d2, '-', h1, h2, ':', n1, n2, ':', s1, s2] =>
      if [y1, y2, y3, y4, m1, m2, d1, d2, h1, h2, n1, n2, s1, s2].all Char.isDigit then
        let y := digitVal y1 * 1000 + digitVal y2 * 100 + digitVal y3 * 10 + digitVal y4
        let mo := digitVal m1 * 10 + digitVal m2
        let d := digitVal d1 * 10 + digitVal d2
        let hh := digitVal h1 * 10 + digitVal h2
        let mm := digitVal n1 * 10 + digitVal n2
        let ss := digitVal s1 * 10 + digitVal s2
        if 1 ≤ mo ∧ mo ≤ 12 ∧ 1 ≤ d ∧ d ≤ daysInMonth y mo ∧ hh ≤ 23 ∧ mm ≤ 59 ∧ ss ≤ 59 then
          some (civilToSeconds y mo d hh mm ss)
        else none
      else none
  | _ => none

/-- Mirror of `ReservationSystem::parse_datetime`: joins date and time
with `-` and parses the result. -/
def parse_datetime (date time : String) : Option Int :=
  parseDateTime (date ++ "-" ++ time)

/-- Mirror of `ReservationSystem::is_too_late`:
`current_datetime >= flight_datetime - Duration::hours(2)`. -/
def is_too_late (current_datetime flight_datetime : Int) : Bool :=
  flight_datetime - 2 * 3600 ≤ current_datetime

/-- Mirror of `ReservationSystem::get_flight_datetime`. -/
def get_flight_datetime (date : String) (flight : Flight) : Option Int :=
  parse_datetime date flight.departure_time

/-- The lookup chain of `ReservationSystem::is_seat_reserved`, on the
occupancy map itself. -/
def occLookup (m : OccMap) (date : String) (flight_id : Nat) (seat_id : String) : Bool :=
  match alookup m date with
  | none => false
  | some flights_on_date =>
    match alookup flights_on_date flight_id with
    | none => false
    | some seats =>
      match alookup seats seat_id with
      | none => false
      | some reserved => reserved

/-- Mirror of `ReservationSystem::is_seat_reserved`. -/
def is_seat_reserved (sys : ReservationSystem) (date : String) (flight_id : Nat)
    (seat_id : String) : Bool :=
  occLookup sys.seat_reservations date flight_id seat_id

/-- The occupancy-map update of `ReservationSystem::reserve_seat`:
`entry(date).or_insert(…).entry(flight_id).or_insert(…).insert(seat_id, true)`. -/
def occ_set_true (m : OccMap) (date : String) (flight_id : Nat) (seat_id : String) : OccMap :=
  let flights_on_date := (alookup m date).getD []
  let seats := (alookup flights_on_date flight_id).getD []
  aset m date (aset flights_on_date flight_id (aset seats seat_id true))

/-- The occupancy-map update of `ReservationSystem::unreserve_seat`:
sets the flag to `false` only when the date and flight levels already
exist. -/
def occ_set_false (m : OccMap) (date : String) (flight_id : Nat) (seat_id : String) : OccMap :=
  match alookup m date with
  | none => m
  | some flights_on_date =>
    match alookup flights_on_date flight_id with
    | none => m
    | some seats =>
      aset m date (aset flights_on_date flight_id (aset seats seat_id false))

/-- Mirror of `ReservationSystem::reserve_seat`. -/
def reserve_seat (sys : ReservationSystem) (date : String) (flight_id : Nat)
    (seat_id : String) : ReservationSystem :=
  { sys with seat_reservations := occ_set_true sys.seat_reservations date flight_id seat_id }

/-- Mirror of `ReservationSystem::unreserve_seat`. -/
def unreserve_seat (sys : ReservationSystem) (date : String) (flight_id : Nat)
    (seat_id : String) : ReservationSystem :=
  { sys with seat_reservations := occ_set_false sys.seat_reservations date flight_id seat_id }

/-- The success output of `process_reserve`: `format!("reserve: {} {}", id, price)`. -/
def reserveSuccessMsg (rid price : Nat) : String :=
  s!"reserve: {rid} {price}"

/-- Mirror of `ReservationSystem::process_reserve`.  `none` models the
panic inside `get_seat_class` on an empty (or non-ASCII-final) seat id. -/
def process_reserve (sys : ReservationSystem) (current_datetime user_id date : String)
    (flight_id : Nat) (seat_id : String) : Option (String × ReservationSystem) :=
  match alookup sys.flights flight_id with
  | none => some ("reserve: flight not found", sys)
  | some flight =>
    match parseDateTime current_datetime with
    | none => some ("reserve: invalid datetime", sys)
    | some current_dt =>
      match get_flight_datetime date flight with
      | none => some ("reserve: invalid flight datetime", sys)
      | some flight_dt =>
        if is_too_late current_dt flight_dt then some ("reserve: too late", sys)
        else if is_seat_reserved sys date flight_id seat_id then
          some ("reserve: already reserved", sys)
        else
          match get_seat_class flight seat_id with
          | none => none
          | some none => some ("reserve: invalid seat_id", sys)
          | some (some (_, price)) =>
            let rid := sys.next_reservation_id
            let reservation : Reservation :=
              { reservation_id := rid, user_id := user_id, date := date,
                flight_id := flight_id, seat_id := seat_id, price := price,
                is_cancelled := false }
            let sys1 := { sys with reservations := aset sys.reservations rid reservation }
            let sys2 := reserve_seat sys1 date flight_id seat_id
            some (reserveSuccessMsg rid price,
                  { sys2 with next_reservation_id := rid + 1 })

/-- Mirror of `ReservationSystem::process_cancel`.  `none` models the
panic of `self.flights.get(&reservation.flight_id).unwrap()` when the
reservation references a flight missing from the catalog. -/
def process_cancel (sys : ReservationSystem) (current_datetime user_id : String)
    (reservation_id : Nat) : Option (String × ReservationSystem) :=
  match alookup sys.reservations reservation_id with
  | none => some ("cancel: reservation not found", sys)
  | some reservation =>
    if reservation.is_cancelled then some ("cancel: reservation not found", sys)
    else if reservation.user_id ≠ user_id then some ("cancel: unauthorized operation", sys)
    else
      match alookup sys.flights reservation.flight_id with
      | none => none
      | some flight =>
        match parseDateTime current_datetime with
        | none => some ("cancel: invalid datetime", sys)
        | some current_dt =>
          match get_flight_datetime reservation.date flight with
          | none => some ("cancel: invalid flight datetime", sys)
          | some flight_dt =>
            if is_too_late current_dt flight_dt then some ("cancel: too late", sys)
            else
              let cancelled := { reservation with is_cancelled := true }
              let sys1 := { sys with
                reservations := aset sys.reservations reservation_id cancelled }
              let sys2 := unreserve_seat sys1 reservation.date reservation.flight_id
                reservation.seat_id
              some ("cancel: success", sys2)

/-- Maps a fallible function over a list, failing as soon as one element
fails (the behaviour of a Rust loop whose body can panic or `?`). -/
def optMap {α β : Type} (f : α → Option β) : List α → Option (List β)
  | [] => some []
  | x :: xs =>
    match f x with
    | none => none
    | some y =>
      match optMap f xs with
      | none => none
      | some ys => some (y :: ys)

/-- One cell of the seat-search grid: `"X"` when held, else the 1-based
seat-class index; `none` models the `unwrap` panic on an unheld seat
that no seat class covers. -/
def seat_display (sys : ReservationSystem) (flight : Flight) (date : String)
    (row : Nat) (t : SeatType) : Option String :=
  let seat_id := s!"{row}{t.as_char}"
  if is_seat_reserved sys date flight.flight_id seat_id then some "X"
  else
    match get_seat_class flight seat_id with
    | some (some (seat_class, _)) => some (toString seat_class)
    | _ => none

/-- Mirror of `ReservationSystem::process_seat_search`: one line per seat
type (A, B, C, D), concatenating that type's cell across rows 1–20.
`none` models the panic on an unclassifiable unheld seat. -/
def process_seat_search (sys : ReservationSystem) (_current_datetime date : String)
    (flight_id : Nat) : Option String :=
  match alookup sys.flights flight_id with
  | none => some "seat-search: flight not found"
  | some flight => do
      let lines ← optMap (fun t =>
        (optMap (fun row => seat_display sys flight date row t)
          (List.range' 1 20)).map String.join) SeatType.variants
      pure (String.intercalate "\n" ("seat-search:" :: lines))

/-- The ledger filter of `process_get_reservations`:
`reservation.user_id == user_id && !reservation.is_cancelled`. -/
def gr_filter (sys : ReservationSystem) (user_id : String) : List (Nat × Reservation) :=
  sys.reservations.filter (fun p => p.2.user_id == user_id && !p.2.is_cancelled)

/-- One entry of `valid_reservations`: the reservation tagged with its
flight's departure instant; `none` models the two `unwrap` panics on a
missing flight or an unparsable date. -/
def gr_entry (sys : ReservationSystem) (p : Nat × Reservation) :
    Option (Int × Nat × Reservation) := do
  let flight ← alookup sys.flights p.2.flight_id
  let flight_dt ← get_flight_datetime p.2.date flight
  pure (flight_dt, p.2.reservation_id, p.2)

/-- The unsorted `valid_reservations` list of `process_get_reservations`. -/
def gr_entries (sys : ReservationSystem) (user_id : String) :
    Option (List (Int × Nat × Reservation)) :=
  optMap (gr_entry sys) (gr_filter sys user_id)

/-- The sort order of `process_get_reservations`:
`a.0.cmp(&b.0).then(a.1.cmp(&b.1)) != Greater`. -/
def grLE (a b : Int × Nat × Reservation) : Prop :=
  a.1 < b.1 ∨ (a.1 = b.1 ∧ a.2.1 ≤ b.2.1)

instance : DecidableRel grLE := fun a b =>
  inferInstanceAs (Decidable (a.1 < b.1 ∨ (a.1 = b.1 ∧ a.2.1 ≤ b.2.1)))

instance : IsTotal (Int × Nat × Reservation) grLE where
  total a b := by
    rcases lt_trichotomy a.1 b.1 with h | h | h
    · exact Or.inl (Or.inl h)
    · rcases Nat.le_total a.2.1 b.2.1 with h' | h'
      · exact Or.inl (Or.inr ⟨h, h'⟩)
      · exact Or.inr (Or.inr ⟨h.symm, h'⟩)
    · exact Or.inr (Or.inl h)

instance : IsTrans (Int × Nat × Reservation) grLE where
  trans a b c hab hbc := by
    rcases hab with h | ⟨he, hn⟩ <;> rcases hbc with h' | ⟨he', hn'⟩
    · exact Or.inl (h.trans h')
    · exact Or.inl (he' ▸ h)
    · exact Or.inl (he ▸ h')
    · exact Or.inr ⟨he.trans he', hn.trans hn'⟩

/-- The sorted `valid_reservations` list of `process_get_reservations`. -/
def gr_sorted (sys : ReservationSystem) (user_id : String) :
    Option (List (Int × Nat × Reservation)) :=
  (gr_entries sys user_id).map (List.insertionSort grLE)

/-- One output line of `process_get_reservations`. -/
def gr_line (r : Reservation) (flight : Flight) : String :=
  let rid := r.reservation_id
  let price := r.price
  let date := r.date
  let fid := r.flight_id
  let sid := r.seat_id
  let dep := flight.departure_airport
  let dtime := flight.departure_time
  let arr := flight.arrival_airport
  let atime := flight.arrival_time
  s!"reservation id: {rid}, price: {price}, seat: {date} {fid} {sid}, route: {dep} ({dtime}) -> {arr} ({atime})"

/-- Mirror of `ReservationSystem::process_get_reservations`.  `none`
models the `unwrap` panics on reservations whose flight is missing or
whose date fails to parse. -/
def process_get_reservations (sys : ReservationSystem) (_current_datetime user_id : String) :
    Option String := do
  let sorted ← gr_sorted sys user_id
  let n := sorted.length
  let lines ← optMap (fun e =>
    (alookup sys.flights e.2.2.flight_id).map (gr_line e.2.2)) sorted
  pure (String.intercalate "\n" (s!"get-reservations: {n}" :: lines))

/-- The catalog filter of `process_flight_search`. -/
def fs_filter (sys : ReservationSystem) (departure_airport arrival_airport : Nat) :
    List Flight :=
  (sys.flights.map Prod.snd).filter
    (fun f => f.departure_airport == departure_airport && f.arrival_airport == arrival_airport)

/-- The unsorted `matching_flights` list of `process_flight_search`. -/
def fs_entries (sys : ReservationSystem) (departure_airport arrival_airport : Nat) :
    List (String × Nat × Flight) :=
  (fs_filter sys departure_airport arrival_airport).map
    (fun f => (f.departure_time, f.flight_id, f))

/-- The sort order of `process_flight_search`:
`a.0.cmp(&b.0).then(a.1.cmp(&b.1)) != Greater` (lexicographic string
compare on the departure time, tie-broken by flight id). -/
def fsLE (a b : String × Nat × Flight) : Prop :=
  a.1 < b.1 ∨ (a.1 = b.1 ∧ a.2.1 ≤ b.2.1)

instance : DecidableRel fsLE := fun a b =>
  inferInstanceAs (Decidable (a.1 < b.1 ∨ (a.1 = b.1 ∧ a.2.1 ≤ b.2.1)))

instance : IsTotal (String × Nat × Flight) fsLE where
  total a b := by
    rcases lt_trichotomy a.1 b.1 with h | h | h
    · exact Or.inl (Or.inl h)
    · rcases Nat.le_total a.2.1 b.2.1 with h' | h'
      · exact Or.inl (Or.inr ⟨h, h'⟩)
      · exact Or.inr (Or.inr ⟨h.symm, h'⟩)
    · exact Or.inr (Or.inl h)

instance : IsTrans (String × Nat × Flight) fsLE where
  trans a b c hab hbc := by
    rcases hab with h | ⟨he, hn⟩ <;> rcases hbc with h' | ⟨he', hn'⟩
    · exact Or.inl (h.trans h')
    · exact Or.inl (he' ▸ h)
    · exact Or.inl (he ▸ h')
    · exact Or.inr ⟨he.trans he', hn.trans hn'⟩

/-- The sorted `matching_flights` list of `process_flight_search`. -/
def fs_sorted (sys : ReservationSystem) (departure_airport arrival_airport : Nat) :
    List (String × Nat × Flight) :=
  List.insertionSort fsLE (fs_entries sys departure_airport arrival_airport)

/-- Unheld seats among the four seat types of one row. -/
def fs_row_count (sys : ReservationSystem) (date : String) (flight_id row : Nat) : Nat :=
  (SeatType.variants.filter
    (fun t => !is_seat_reserved sys date flight_id (s!"{row}{t.as_char}"))).length

/-- The per-class availability lines of one flight in
`process_flight_search`; `idx` is the printed 1-based class index and
`start_row` the first row of the class's range. -/
def fs_class_lines (sys : ReservationSystem) (date : String) (flight_id : Nat) :
    List SeatClass → Nat → Nat → List String
  | [], _, _ => []
  | sc :: rest, idx, start_row =>
    let seats_count :=
      ((List.range' start_row (sc.column + 1 - start_row)).map
        (fun row => fs_row_count sys date flight_id row)).sum
    let price := sc.price
    s!"class {idx}: {seats_count} seats available. price = {price}" ::
      fs_class_lines sys date flight_id rest (idx + 1) (sc.column + 1)

/-- The header line of one flight in `process_flight_search`. -/
def fs_header (f : Flight) : String :=
  let fid := f.flight_id
  let dtime := f.departure_time
  let atime := f.arrival_time
  s!"{fid} {dtime} {atime}"

/-- Mirror of `ReservationSystem::process_flight_search` (no panic is
possible: it contains no `unwrap` on fallible data). -/
def process_flight_search (sys : ReservationSystem) (_current_datetime date : String)
    (departure_airport arrival_airport : Nat) : String :=
  let ms := fs_sorted sys departure_airport arrival_airport
  let n := ms.length
  let body := ms.map (fun e =>
    fs_header e.2.2 :: fs_class_lines sys date e.2.2.flight_id e.2.2.seat_classes 1 1)
  String.intercalate "\n" (s!"flight-search: {n}" :: body.flatten)

/-- Mirror of `ReservationSystem::add_flight`. -/
def add_flight (sys : ReservationSystem) (flight_id departure_airport arrival_airport : Nat)
    (departure_time arrival_time : String) (seat_classes : List SeatClass) :
    ReservationSystem :=
  let flight : Flight :=
    { flight_id := flight_id, departure_airport := departure_airport,
      arrival_airport := arrival_airport, departure_time := departure_time,
      arrival_time := arrival_time, seat_classes := seat_classes }
  { sys with flights := aset sys.flights flight_id flight }

/-- Arguments of one catalog entry loaded at startup. -/
structure LoadArgs where
  flight_id : Nat
  departure_airport : Nat
  arrival_airport : Nat
  departure_time : String
  arrival_time : String
  seat_classes : List SeatClass
deriving DecidableEq, Repr

/-- The catalog-loading loop of `main`. -/
def loadAll (sys : ReservationSystem) (loads : List LoadArgs) : ReservationSystem :=
  loads.foldl (fun s a =>
    add_flight s a.flight_id a.departure_airport a.arrival_airport
      a.departure_time a.arrival_time a.seat_classes) sys

/-- The five engine commands dispatched by `main`'s query loop. -/
inductive Command where
  | reserve (now user_id date : String) (flight_id : Nat) (seat_id : String)
  | cancel (now user_id : String) (reservation_id : Nat)
  | seatSearch (now date : String) (flight_id : Nat)
  | getReservations (now user_id : String)
  | flightSearch (now date : String) (departure_airport arrival_airport : Nat)
deriving DecidableEq, Repr

/-- Executes one command; `none` models a panic. -/
def exec (sys : ReservationSystem) : Command → Option (String × ReservationSystem)
  | .reserve now uid date fid sid => process_reserve sys now uid date fid sid
  | .cancel now uid rid => process_cancel sys now uid rid
  | .seatSearch now date fid =>
      (process_seat_search sys now date fid).map (fun out => (out, sys))
  | .getReservations now uid =>
      (process_get_reservations sys now uid).map (fun out => (out, sys))
  | .flightSearch now date dep arr =>
      some (process_flight_search sys now date dep arr, sys)

/-- Runs a command sequence, stopping at a panic. -/
def runCmds (sys : ReservationSystem) : List Command → Option ReservationSystem
  | [] => some sys
  | c :: cs =>
    match exec sys c with
    | none => none
    | some (_, sys') => runCmds sys' cs

/-- A state is reachable when `main` can produce it: the catalog is
loaded first, then any (non-panicking) command sequence runs. -/
def Reachable (sys : ReservationSystem) : Prop :=
  ∃ loads cmds, runCmds (loadAll initSystem loads) cmds = some sys

/-- The occupancy key a reservation holds. -/
def resKey (r : Reservation) : String × Nat × String := (r.date, r.flight_id, r.seat_id)

/-- `is_seat_reserved` on a packaged key. -/
def heldKey (sys : ReservationSystem) (k : String × Nat × String) : Bool :=
  is_seat_reserved sys k.1 k.2.1 k.2.2

/-- Number of active (non-cancelled) ledger entries holding key `k`. -/
def activeCount (sys : ReservationSystem) (k : String × Nat × String) : Nat :=
  sys.reservations.countP (fun p => !p.2.is_cancelled && decide (resKey p.2 = k))

/-- The inductive invariant of reachable states. -/
structure GoodState (sys : ReservationSystem) : Prop where
  ids_lt : ∀ p ∈ sys.reservations, p.1 < sys.next_reservation_id
  ids_eq : ∀ p ∈ sys.reservations, p.2.reservation_id = p.1
  keys_nodup : (sys.reservations.map Prod.fst).Nodup
  flights_nodup : (sys.flights.map Prod.fst).Nodup
  unheld_inactive : ∀ k, heldKey sys k = false → activeCount sys k = 0
  at_most_one : ∀ k, activeCount sys k ≤ 1
  ledger_flights : ∀ p ∈ sys.reservations, ∃ f,
    alookup sys.flights p.2.flight_id = some f ∧
    (parse_datetime p.2.date f.departure_time).isSome

/-- A cancelled copy of a reservation, as built by `process_cancel`. -/
def cancelledRes (r : Reservation) : Reservation := { r with is_cancelled := true }

/-- The catalog flight used by the concrete scenarios: id 1, route
100 → 200, departing 10:00:00, one class covering rows 1–20 at 100. -/
def fA : Flight :=
  { flight_id := 1, departure_airport := 100, arrival_airport := 200,
    departure_time := "10:00:00", arrival_time := "18:00:00",
    seat_classes := [⟨20, 100⟩] }

/-- Load arguments producing `fA`. -/
def loadsA : List LoadArgs := [⟨1, 100, 200, "10:00:00", "18:00:00", [⟨20, 100⟩]⟩]

/-- State with flight `fA` loaded and no commands run. -/
def sysA : ReservationSystem := { initSystem with flights := [(1, fA)] }

/-- Alice's reservation of seat 1A produced by the scenario's first command. -/
def resAlice : Reservation :=
  { reservation_id := 1, user_id := "alice", date := "2024/03/15", flight_id := 1,
    seat_id := "1A", price := 100, is_cancelled := false }

/-- State after Alice reserves seat 1A on flight 1 for 2024/03/15. -/
def sysB : ReservationSystem :=
  { flights := [(1, fA)], reservations := [(1, resAlice)],
    seat_reservations := [("2024/03/15", [(1, [("1A", true)])])],
    next_reservation_id := 2 }

/-- A flight whose single seat class has upper row bound 25 (beyond the
20-row universe). -/
def fBig : Flight :=
  { flight_id := 1, departure_airport := 100, arrival_airport := 200,
    departure_time := "10:00:00", arrival_time := "18:00:00",
    seat_classes := [⟨25, 50⟩] }

/-- State with only `fBig` loaded. -/
def sysBig : ReservationSystem := { initSystem with flights := [(1, fBig)] }

/-- A second reservation by Alice, on a later date. -/
def resAlice2 : Reservation :=
  { reservation_id := 2, user_id := "alice", date := "2024/03/16", flight_id := 1,
    seat_id := "2A", price := 100, is_cancelled := false }

/-- A ledger holding Alice's two reservations in insertion order. -/
def sysP1 : ReservationSystem :=
  { flights := [(1, fA)], reservations := [(1, resAlice), (2, resAlice2)],
    seat_reservations := [], next_reservation_id := 3 }

/-- The same logical state as `sysP1` with the ledger entries permuted. -/
def sysP2 : ReservationSystem :=
  { flights := [(1, fA)], reservations := [(2, resAlice2), (1, resAlice)],
    seat_reservations := [], next_reservation_id := 3 }

section AssocLemmas

variable {κ ν : Type} [DecidableEq κ]

theorem alookup_aset_self (l : List (κ × ν)) (k : κ) (v : ν) :
    alookup (aset l k v) k = some v := by
  induction l with
  | nil => simp [aset, alookup]
  | cons hd tl ih =>
    obtain ⟨k1, v1⟩ := hd
    by_cases h : k1 = k
    · subst h; simp [aset, alookup]
    · simp [aset, alookup, h, ih]

theorem alookup_aset_ne (l : List (κ × ν)) {k k' : κ} (h : k' ≠ k) (v : ν) :
    alookup (aset l k v) k' = alookup l k' := by
  induction l with
  | nil => simp [aset, alookup, Ne.symm h]
  | cons hd tl ih =>
    obtain ⟨k1, v1⟩ := hd
    by_cases hk : k1 = k
    · subst hk; simp [aset, alookup, Ne.symm h]
    · by_cases hk' : k1 = k'
      · subst hk'; simp [aset, alookup, hk]
      · simp [aset, alookup, hk, hk', ih]

theorem alookup_some_mem {l : List (κ × ν)} {k : κ} {v : ν}
    (h : alookup l k = some v) : (k, v) ∈ l := by
  induction l with
  | nil => simp [alookup] at h
  | cons hd tl ih =>
    obtain ⟨k1, v1⟩ := hd
    by_cases hk : k1 = k
    · subst hk
      simp [alookup] at h
      subst h
      exact List.mem_cons_self _ _
    · simp [alookup, hk] at h
      exact List.mem_cons_of_mem _ (ih h)

theorem alookup_eq_none_iff {l : List (κ × ν)} {k : κ} :
    alookup l k = none ↔ k ∉ l.map Prod.fst := by
  induction l with
  | nil => simp [alookup]
  | cons hd tl ih =>
    obtain ⟨k1, v1⟩ := hd
    by_cases hk : k1 = k
    · subst hk; simp [alookup]
    · simp [alookup, hk, ih, Ne.symm hk]

theorem aset_of_not_mem {l : List (κ × ν)} {k : κ} (h : k ∉ l.map Prod.fst) (v : ν) :
    aset l k v = l ++ [(k, v)] := by
  induction l with
  | nil => simp [aset]
  | cons hd tl ih =>
    obtain ⟨k1, v1⟩ := hd
    simp only [List.map_cons, List.mem_cons] at h
    push_neg at h
    simp [aset, Ne.symm h.1, ih h.2]

theorem keys_aset_of_mem {l : List (κ × ν)} {k : κ} (h : k ∈ l.map Prod.fst) (v : ν) :
    (aset l k v).map Prod.fst = l.map Prod.fst := by
  induction l with
  | nil => simp at h
  | cons hd tl ih =>
    obtain ⟨k1, v1⟩ := hd
    by_cases hk : k1 = k
    · subst hk; simp [aset]
    · simp only [List.map_cons, List.mem_cons] at h
      rcases h with h | h
      · exact absurd h.symm hk
      · simp [aset, hk, ih h]

theorem keys_aset_nodup {l : List (κ × ν)} (h : (l.map Prod.fst).Nodup) (k : κ) (v : ν) :
    ((aset l k v).map Prod.fst).Nodup := by
  by_cases hk : k ∈ l.map Prod.fst
  · rw [keys_aset_of_mem hk]; exact h
  · rw [aset_of_not_mem hk]
    simp only [List.map_append, List.map_cons, List.map_nil]
    rw [List.nodup_append]
    refine ⟨h, List.nodup_singleton _, ?_⟩
    intro a ha hb
    simp only [List.mem_singleton] at hb
    subst hb
    exact hk ha

theorem mem_aset {l : List (κ × ν)} {k : κ} {v : ν} {p : κ × ν}
    (h : p ∈ aset l k v) : p = (k, v) ∨ p ∈ l := by
  induction l with
  | nil =>
    simp only [aset, List.mem_singleton] at h
    exact Or.inl h
  | cons hd tl ih =>
    obtain ⟨k1, v1⟩ := hd
    by_cases hk : k1 = k
    · subst hk
      have ha : aset ((k1, v1) :: tl) k1 v = (k1, v) :: tl := by simp [aset]
      rw [ha] at h
      rcases List.mem_cons.mp h with h' | h'
      · exact Or.inl h'
      · exact Or.inr (List.mem_cons_of_mem _ h')
    · have ha : aset ((k1, v1) :: tl) k v = (k1, v1) :: aset tl k v := by simp [aset, hk]
      rw [ha] at h
      rcases List.mem_cons.mp h with h' | h'
      · exact Or.inr (by simp [h'])
      · rcases ih h' with h2 | h2
        · exact Or.inl h2
        · exact Or.inr (List.mem_cons_of_mem _ h2)

theorem countP_aset {l : List (κ × ν)} {k : κ} {v : ν}
    (h : alookup l k = some v) (v' : ν) (p : κ × ν → Bool) :
    (aset l k v').countP p + (if p (k, v) then 1 else 0)
      = l.countP p + (if p (k, v') then 1 else 0) := by
  induction l with
  | nil => simp [alookup] at h
  | cons hd tl ih =>
    obtain ⟨k1, v1⟩ := hd
    by_cases hk : k1 = k
    · subst hk
      simp [alookup] at h
      subst h
      have ha : aset ((k1, v1) :: tl) k1 v' = (k1, v') :: tl := by simp [aset]
      rw [ha, List.countP_cons, List.countP_cons]
      omega
    · simp only [alookup, if_neg hk] at h
      simp only [aset, if_neg hk, List.countP_cons]
      have := ih h
      omega

end AssocLemmas

theorem occLookup_set_true_self (m : OccMap) (d : String) (fid : Nat) (sid : String) :
    occLookup (occ_set_true m d fid sid) d fid sid = true := by
  simp [occ_set_true, occLookup, alookup_aset_self]

theorem occLookup_set_true_other (m : OccMap) (d : String) (fid : Nat) (sid : String)
    {d' : String} {fid' : Nat} {sid' : String}
    (h : ¬(d' = d ∧ fid' = fid ∧ sid' = sid)) :
    occLookup (occ_set_true m d fid sid) d' fid' sid' = occLookup m d' fid' sid' := by
  by_cases hd : d' = d
  · subst hd
    by_cases hf : fid' = fid
    · subst hf
      have hs : sid' ≠ sid := by
        intro hs
        exact h ⟨rfl, rfl, hs⟩
      cases h1 : alookup m d' with
      | none =>
        simp [occ_set_true, occLookup, h1, alookup_aset_self, alookup_aset_ne _ hs,
          alookup, Ne.symm hs]
      | some fl =>
        cases h2 : alookup fl fid' with
        | none =>
          simp [occ_set_true, occLookup, h1, h2, alookup_aset_self,
            alookup_aset_ne _ hs, alookup, Ne.symm hs]
        | some seats =>
          simp [occ_set_true, occLookup, h1, h2, alookup_aset_self, alookup_aset_ne _ hs]
    · cases h1 : alookup m d' with
      | none =>
        simp [occ_set_true, occLookup, h1, alookup_aset_self, alookup_aset_ne _ hf,
          alookup, Ne.symm hf]
      | some fl =>
        simp [occ_set_true, occLookup, h1, alookup_aset_self, alookup_aset_ne _ hf]
  · simp [occ_set_true, occLookup, alookup_aset_ne _ hd]

theorem occLookup_set_false_self (m : OccMap) (d : String) (fid : Nat) (sid : String) :
    occLookup (occ_set_false m d fid sid) d fid sid = false := by
  cases h1 : alookup m d with
  | none => simp [occ_set_false, occLookup, h1]
  | some fl =>
    cases h2 : alookup fl fid with
    | none => simp [occ_set_false, occLookup, h1, h2]
    | some seats =>
      simp [occ_set_false, occLookup, h1, h2, alookup_aset_self]

theorem occLookup_set_false_other (m : OccMap) (d : String) (fid : Nat) (sid : String)
    {d' : String} {fid' : Nat} {sid' : String}
    (h : ¬(d' = d ∧ fid' = fid ∧ sid' = sid)) :
    occLookup (occ_set_false m d fid sid) d' fid' sid' = occLookup m d' fid' sid' := by
  cases h1 : alookup m d with
  | none => simp [occ_set_false, h1]
  | some fl =>
    cases h2 : alookup fl fid with
    | none => simp [occ_set_false, h1, h2]
    | some seats =>
      by_cases hd : d' = d
      · subst hd
        by_cases hf : fid' = fid
        · subst hf
          have hs : sid' ≠ sid := by
            intro hs
            exact h ⟨rfl, rfl, hs⟩
          simp [occ_set_false, occLookup, h1, h2, alookup_aset_self, alookup_aset_ne _ hs]
        · simp [occ_set_false, occLookup, h1, h2, alookup_aset_self, alookup_aset_ne _ hf]
      · simp [occ_set_false, occLookup, h1, h2, alookup_aset_ne _ hd]

/-- Case analysis on the result of `process_reserve`: either the call
failed with one of the six error outputs and left the state untouched,
or every precondition held and the three state components were updated
as the success branch writes them. -/
theorem reserve_inv {sys : ReservationSystem} {now uid date : String} {fid : Nat}
    {sid : String} {out : String} {sys' : ReservationSystem}
    (h : process_reserve sys now uid date fid sid = some (out, sys')) :
    (sys' = sys ∧
      (out = "reserve: flight not found" ∨ out = "reserve: invalid datetime" ∨
       out = "reserve: invalid flight datetime" ∨ out = "reserve: too late" ∨
       out = "reserve: already reserved" ∨ out = "reserve: invalid seat_id")) ∨
    (∃ flight current_dt flight_dt idx price,
      alookup sys.flights fid = some flight ∧
      parseDateTime now = some current_dt ∧
      get_flight_datetime date flight = some flight_dt ∧
      is_too_late current_dt flight_dt = false ∧
      is_seat_reserved sys date fid sid = false ∧
      get_seat_class flight sid = some (some (idx, price)) ∧
      out = reserveSuccessMsg sys.next_reservation_id price ∧
      sys'.flights = sys.flights ∧
      sys'.reservations = aset sys.reservations sys.next_reservation_id
        ⟨sys.next_reservation_id, uid, date, fid, sid, price, false⟩ ∧
      sys'.seat_reservations = occ_set_true sys.seat_reservations date fid sid ∧
      sys'.next_reservation_id = sys.next_reservation_id + 1) := by
  unfold process_reserve at h
  cases hflight : alookup sys.flights fid with
  | none =>
    simp only [hflight] at h
    simp only [Option.some.injEq, Prod.mk.injEq] at h
    exact Or.inl ⟨h.2.symm, Or.inl h.1.symm⟩
  | some flight =>
    simp only [hflight] at h
    cases hnow : parseDateTime now with
    | none =>
      simp only [hnow] at h
      simp only [Option.some.injEq, Prod.mk.injEq] at h
      exact Or.inl ⟨h.2.symm, Or.inr (Or.inl h.1.symm)⟩
    | some current_dt =>
      simp only [hnow] at h
      cases hfdt : get_flight_datetime date flight with
      | none =>
        simp only [hfdt] at h
        simp only [Option.some.injEq, Prod.mk.injEq] at h
        exact Or.inl ⟨h.2.symm, Or.inr (Or.inr (Or.inl h.1.symm))⟩
      | some flight_dt =>
        simp only [hfdt] at h
        cases hlate : is_too_late current_dt flight_dt with
        | true =>
          simp only [hlate] at h
          simp only [if_true, Option.some.injEq, Prod.mk.injEq] at h
          exact Or.inl ⟨h.2.symm, Or.inr (Or.inr (Or.inr (Or.inl h.1.symm)))⟩
        | false =>
          simp only [hlate] at h
          simp only [Bool.false_eq_true, if_false] at h
          cases hheld : is_seat_reserved sys date fid sid with
          | true =>
            simp only [hheld] at h
            simp only [if_true, Option.some.injEq, Prod.mk.injEq] at h
            exact Or.inl ⟨h.2.symm, Or.inr (Or.inr (Or.inr (Or.inr (Or.inl h.1.symm))))⟩
          | false =>
            simp only [hheld] at h
            simp only [Bool.false_eq_true, if_false] at h
            cases hcls : get_seat_class flight sid with
            | none => simp only [hcls] at h; exact absurd h (by simp)
            | some inner =>
              simp only [hcls] at h
              cases inner with
              | none =>
                simp only [Option.some.injEq, Prod.mk.injEq] at h
                exact Or.inl
                  ⟨h.2.symm, Or.inr (Or.inr (Or.inr (Or.inr (Or.inr h.1.symm))))⟩
              | some pr =>
                obtain ⟨idx, price⟩ := pr
                simp only [Option.some.injEq, Prod.mk.injEq] at h
                obtain ⟨hout, hsys⟩ := h
                refine Or.inr ⟨flight, current_dt, flight_dt, idx, price,
                  rfl, rfl, hfdt, hlate, rfl, hcls, hout.symm, ?_, ?_, ?_, ?_⟩
                · rw [← hsys]; simp [reserve_seat]
                · rw [← hsys]; simp [reserve_seat]
                · rw [← hsys]; simp [reserve_seat]
                · rw [← hsys]

/-- Case analysis on the result of `process_cancel`: either the call
failed with one of the five error outputs and left the state untouched,
or every precondition held, the reservation was re-stored cancelled,
and its seat was released. -/
theorem cancel_inv {sys : ReservationSystem} {now uid : String} {rid : Nat}
    {out : String} {sys' : ReservationSystem}
    (h : process_cancel sys now uid rid = some (out, sys')) :
    (sys' = sys ∧
      (out = "cancel: reservation not found" ∨ out = "cancel: unauthorized operation" ∨
       out = "cancel: invalid datetime" ∨ out = "cancel: invalid flight datetime" ∨
       out = "cancel: too late")) ∨
    (∃ r flight current_dt flight_dt,
      alookup sys.reservations rid = some r ∧
      r.is_cancelled = false ∧
      r.user_id = uid ∧
      alookup sys.flights r.flight_id = some flight ∧
      parseDateTime now = some current_dt ∧
      get_flight_datetime r.date flight = some flight_dt ∧
      is_too_late current_dt flight_dt = false ∧
      out = "cancel: success" ∧
      sys'.flights = sys.flights ∧
      sys'.reservations = aset sys.reservations rid (cancelledRes r) ∧
      sys'.seat_reservations = occ_set_false sys.seat_reservations r.date r.flight_id r.seat_id ∧
      sys'.next_reservation_id = sys.next_reservation_id) := by
  unfold process_cancel at h
  cases hres : alookup sys.reservations rid with
  | none =>
    simp only [hres] at h
    simp only [Option.some.injEq, Prod.mk.injEq] at h
    exact Or.inl ⟨h.2.symm, Or.inl h.1.symm⟩
  | some r =>
    simp only [hres] at h
    cases hcan : r.is_cancelled with
    | true =>
      simp only [hcan] at h
      simp only [if_true, Option.some.injEq, Prod.mk.injEq] at h
      exact Or.inl ⟨h.2.symm, Or.inl h.1.symm⟩
    | false =>
      simp only [hcan] at h
      simp only [Bool.false_eq_true, if_false] at h
      by_cases huser : r.user_id = uid
      · rw [if_neg (by simp [huser])] at h
        cases hflight : alookup sys.flights r.flight_id with
        | none => simp only [hflight] at h; exact absurd h (by simp)
        | some flight =>
          simp only [hflight] at h
          cases hnow : parseDateTime now with
          | none =>
            simp only [hnow] at h
            simp only [Option.some.injEq, Prod.mk.injEq] at h
            exact Or.inl ⟨h.2.symm, Or.inr (Or.inr (Or.inl h.1.symm))⟩
          | some current_dt =>
            simp only [hnow] at h
            cases hfdt : get_flight_datetime r.date flight with
            | none =>
              simp only [hfdt] at h
              simp only [Option.some.injEq, Prod.mk.injEq] at h
              exact Or.inl ⟨h.2.symm, Or.inr (Or.inr (Or.inr (Or.inl h.1.symm)))⟩
            | some flight_dt =>
              simp only [hfdt] at h
              cases hlate : is_too_late current_dt flight_dt with
              | true =>
                simp only [hlate] at h
                simp only [if_true, Option.some.injEq, Prod.mk.injEq] at h
                exact Or.inl ⟨h.2.symm, Or.inr (Or.inr (Or.inr (Or.inr h.1.symm)))⟩
              | false =>
                simp only [hlate] at h
                simp only [Bool.false_eq_true, if_false, Option.some.injEq,
                  Prod.mk.injEq] at h
                obtain ⟨hout, hsys⟩ := h
                refine Or.inr ⟨r, flight, current_dt, flight_dt,
                  rfl, hcan, huser, hflight, rfl, hfdt, hlate, hout.symm, ?_, ?_, ?_, ?_⟩
                · rw [← hsys]; simp [unreserve_seat]
                · rw [← hsys]; simp [unreserve_seat, cancelledRes]
                · rw [← hsys]; simp [unreserve_seat]
                · rw [← hsys]; simp [unreserve_seat]
      · rw [if_pos (by simp [huser])] at h
        simp only [Option.some.injEq, Prod.mk.injEq] at h
        exact Or.inl ⟨h.2.symm, Or.inr (Or.inl h.1.symm)⟩

theorem heldKey_def (sys : ReservationSystem) (kd : String) (kf : Nat) (ks : String) :
    heldKey sys (kd, kf, ks) = is_seat_reserved sys kd kf ks := rfl

/-- A successful reserve preserves the state invariant. -/
theorem goodState_reserve {sys : ReservationSystem} {now uid date : String} {fid : Nat}
    {sid out : String} {sys' : ReservationSystem} (g : GoodState sys)
    (h : process_reserve sys now uid date fid sid = some (out, sys')) : GoodState sys' := by
  rcases reserve_inv h with ⟨rfl, _⟩ |
    ⟨flight, ndt, fdt, idx, price, hf, hn, hd, hl, hh, hc, hout, hfl, hres, hocc, hnext⟩
  · exact g
  · have hfresh : sys.next_reservation_id ∉ sys.reservations.map Prod.fst := by
      intro hmem
      obtain ⟨p, hp, hpk⟩ := List.mem_map.mp hmem
      have := g.ids_lt p hp
      omega
    have hres' : sys'.reservations = sys.reservations ++
        [(sys.next_reservation_id,
          ⟨sys.next_reservation_id, uid, date, fid, sid, price, false⟩)] := by
      rw [hres, aset_of_not_mem hfresh]
    have hheldSelf : heldKey sys' (date, fid, sid) = true := by
      rw [heldKey_def]
      unfold is_seat_reserved
      rw [hocc]
      exact occLookup_set_true_self _ _ _ _
    have hheld' : ∀ kd kf ks, ¬(kd = date ∧ kf = fid ∧ ks = sid) →
        heldKey sys' (kd, kf, ks) = heldKey sys (kd, kf, ks) := by
      intro kd kf ks hk
      rw [heldKey_def, heldKey_def]
      unfold is_seat_reserved
      rw [hocc]
      exact occLookup_set_true_other _ _ _ _ hk
    have hcountSelf : activeCount sys' (date, fid, sid)
        = activeCount sys (date, fid, sid) + 1 := by
      unfold activeCount
      rw [hres', List.countP_append]
      simp [resKey]
    have hcount' : ∀ kd kf ks, ¬(kd = date ∧ kf = fid ∧ ks = sid) →
        activeCount sys' (kd, kf, ks) = activeCount sys (kd, kf, ks) := by
      intro kd kf ks hk
      unfold activeCount
      rw [hres', List.countP_append]
      have : ¬(date = kd ∧ fid = kf ∧ sid = ks) := by
        intro he
        exact hk ⟨he.1.symm, he.2.1.symm, he.2.2.symm⟩
      simp [resKey, Prod.ext_iff, this]
    refine ⟨?_, ?_, ?_, ?_, ?_, ?_, ?_⟩
    · intro p hp
      rw [hres'] at hp
      rw [hnext]
      rcases List.mem_append.mp hp with hp | hp
      · have := g.ids_lt p hp
        omega
      · simp only [List.mem_singleton] at hp
        subst hp
        omega
    · intro p hp
      rw [hres'] at hp
      rcases List.mem_append.mp hp with hp | hp
      · exact g.ids_eq p hp
      · simp only [List.mem_singleton] at hp
        subst hp
        rfl
    · rw [hres']
      rw [List.map_append]
      rw [List.nodup_append]
      refine ⟨g.keys_nodup, List.nodup_singleton _, ?_⟩
      intro a ha hb
      simp only [List.map_cons, List.map_nil, List.mem_singleton] at hb
      subst hb
      exact hfresh ha
    · rw [hfl]
      exact g.flights_nodup
    · intro k hk
      obtain ⟨kd, kf, ks⟩ := k
      by_cases hkey : kd = date ∧ kf = fid ∧ ks = sid
      · obtain ⟨rfl, rfl, rfl⟩ := hkey
        rw [hheldSelf] at hk
        exact absurd hk (by simp)
      · rw [hheld' kd kf ks hkey] at hk
        rw [hcount' kd kf ks hkey]
        exact g.unheld_inactive (kd, kf, ks) hk
    · intro k
      obtain ⟨kd, kf, ks⟩ := k
      by_cases hkey : kd = date ∧ kf = fid ∧ ks = sid
      · obtain ⟨rfl, rfl, rfl⟩ := hkey
        rw [hcountSelf]
        have hz : activeCount sys (kd, kf, ks) = 0 :=
          g.unheld_inactive (kd, kf, ks) hh
        omega
      · rw [hcount' kd kf ks hkey]
        exact g.at_most_one (kd, kf, ks)
    · intro p hp
      rw [hres'] at hp
      rcases List.mem_append.mp hp with hp | hp
      · obtain ⟨f, hf1, hf2⟩ := g.ledger_flights p hp
        exact ⟨f, by rw [hfl]; exact hf1, hf2⟩
      · simp only [List.mem_singleton] at hp
        subst hp
        refine ⟨flight, by rw [hfl]; exact hf, ?_⟩
        have : get_flight_datetime date flight = some fdt := hd
        unfold get_flight_datetime at this
        rw [this]
        rfl

/-- A cancel call preserves the state invariant. -/
theorem goodState_cancel {sys : ReservationSystem} {now uid : String} {rid : Nat}
    {out : String} {sys' : ReservationSystem} (g : GoodState sys)
    (h : process_cancel sys now uid rid = some (out, sys')) : GoodState sys' := by
  rcases cancel_inv h with ⟨rfl, _⟩ |
    ⟨r, flight, ndt, fdt, hres, hcan, huser, hf, hn, hd, hl, hout, hfl, hresL, hocc, hnext⟩
  · exact g
  · have hmem : (rid, r) ∈ sys.reservations := alookup_some_mem hres
    have hrk : rid ∈ sys.reservations.map Prod.fst :=
      List.mem_map.mpr ⟨(rid, r), hmem, rfl⟩
    have hcount : ∀ k, activeCount sys' k + (if resKey r = k then 1 else 0)
        = activeCount sys k := by
      intro k
      have hc := countP_aset hres (cancelledRes r)
        (fun p => !p.2.is_cancelled && decide (resKey p.2 = k))
      unfold activeCount
      rw [hresL]
      simpa [cancelledRes, hcan] using hc
    have hheldSelf : heldKey sys' (r.date, r.flight_id, r.seat_id) = false := by
      rw [heldKey_def]
      unfold is_seat_reserved
      rw [hocc]
      exact occLookup_set_false_self _ _ _ _
    have hheld' : ∀ kd kf ks, ¬(kd = r.date ∧ kf = r.flight_id ∧ ks = r.seat_id) →
        heldKey sys' (kd, kf, ks) = heldKey sys (kd, kf, ks) := by
      intro kd kf ks hk
      rw [heldKey_def, heldKey_def]
      unfold is_seat_reserved
      rw [hocc]
      exact occLookup_set_false_other _ _ _ _ hk
    refine ⟨?_, ?_, ?_, ?_, ?_, ?_, ?_⟩
    · intro p hp
      rw [hresL] at hp
      rw [hnext]
      rcases mem_aset hp with hp | hp
      · subst hp
        exact g.ids_lt (rid, r) hmem
      · exact g.ids_lt p hp
    · intro p hp
      rw [hresL] at hp
      rcases mem_aset hp with hp | hp
      · subst hp
        exact g.ids_eq (rid, r) hmem
      · exact g.ids_eq p hp
    · rw [hresL, keys_aset_of_mem hrk]
      exact g.keys_nodup
    · rw [hfl]
      exact g.flights_nodup
    · intro k hk
      have hcnt := hcount k
      by_cases hkey : resKey r = k
      · simp only [if_pos hkey] at hcnt
        have := g.at_most_one k
        omega
      · simp only [if_neg hkey, Nat.add_zero] at hcnt
        obtain ⟨kd, kf, ks⟩ := k
        have hk' : ¬(kd = r.date ∧ kf = r.flight_id ∧ ks = r.seat_id) := by
          intro he
          apply hkey
          rw [resKey]
          rw [he.1, he.2.1, he.2.2]
        rw [hheld' kd kf ks hk'] at hk
        rw [hcnt]
        exact g.unheld_inactive (kd, kf, ks) hk
    · intro k
      have hcnt := hcount k
      have := g.at_most_one k
      omega
    · intro p hp
      rw [hresL] at hp
      rcases mem_aset hp with hp | hp
      · subst hp
        obtain ⟨f, hf1, hf2⟩ := g.ledger_flights (rid, r) hmem
        exact ⟨f, by rw [hfl]; exact hf1, hf2⟩
      · obtain ⟨f, hf1, hf2⟩ := g.ledger_flights p hp
        exact ⟨f, by rw [hfl]; exact hf1, hf2⟩

/-- Every command preserves the state invariant. -/
theorem goodState_exec {sys : ReservationSystem} {c : Command} {out : String}
    {sys' : ReservationSystem} (g : GoodState sys)
    (h : exec sys c = some (out, sys')) : GoodState sys' := by
  cases c with
  | reserve now uid date fid sid => exact goodState_reserve g h
  | cancel now uid rid => exact goodState_cancel g h
  | seatSearch now date fid =>
    simp only [exec, Option.map_eq_some'] at h
    obtain ⟨a, ha, hpair⟩ := h
    injection hpair with h1 h2
    rw [← h2]
    exact g
  | getReservations now uid =>
    simp only [exec, Option.map_eq_some'] at h
    obtain ⟨a, ha, hpair⟩ := h
    injection hpair with h1 h2
    rw [← h2]
    exact g
  | flightSearch now date dep arr =>
    simp only [exec, Option.some.injEq, Prod.mk.injEq] at h
    rw [← h.2]
    exact g

/-- Running a command list preserves the state invariant. -/
theorem goodState_runCmds {cmds : List Command} :
    ∀ {sys sys' : ReservationSystem}, GoodState sys →
      runCmds sys cmds = some sys' → GoodState sys' := by
  induction cmds with
  | nil =>
    intro sys sys' g h
    simp only [runCmds, Option.some.injEq] at h
    rw [← h]
    exact g
  | cons c cs ih =>
    intro sys sys' g h
    unfold runCmds at h
    cases he : exec sys c with
    | none => rw [he] at h; exact absurd h (by simp)
    | some p =>
      rw [he] at h
      exact ih (goodState_exec g he) h

/-- The empty system satisfies the invariant. -/
theorem goodState_init : GoodState initSystem := by
  refine ⟨?_, ?_, ?_, ?_, ?_, ?_, ?_⟩ <;>
    simp [initSystem, activeCount, List.countP_nil]

/-- Catalog loading preserves the invariant and keeps the ledger empty. -/
theorem goodState_loadAll (loads : List LoadArgs) :
    ∀ {sys : ReservationSystem}, GoodState sys → sys.reservations = [] →
      GoodState (loadAll sys loads) ∧ (loadAll sys loads).reservations = [] := by
  induction loads with
  | nil => intro sys g he; exact ⟨g, he⟩
  | cons a rest ih =>
    intro sys g he
    have gstep : GoodState (add_flight sys a.flight_id a.departure_airport
        a.arrival_airport a.departure_time a.arrival_time a.seat_classes) ∧
        (add_flight sys a.flight_id a.departure_airport a.arrival_airport
          a.departure_time a.arrival_time a.seat_classes).reservations = [] := by
      constructor
      · refine ⟨?_, ?_, ?_, ?_, ?_, ?_, ?_⟩ <;>
          simp [add_flight, he, activeCount, keys_aset_nodup g.flights_nodup]
      · simp [add_flight, he]
    exact ih gstep.1 gstep.2

/-- Every reachable state satisfies the invariant. -/
theorem reachable_goodState {sys : ReservationSystem} (h : Reachable sys) :
    GoodState sys := by
  obtain ⟨loads, cmds, hrun⟩ := h
  exact goodState_runCmds (goodState_loadAll loads goodState_init rfl).1 hrun

section OptMapLemmas

variable {α β : Type} {f : α → Option β}

theorem optMap_eq_none_iff : ∀ {l : List α}, optMap f l = none ↔ ∃ x ∈ l, f x = none := by
  intro l
  induction l with
  | nil => simp [optMap]
  | cons x xs ih =>
    cases hx : f x with
    | none => simp [optMap, hx]
    | some y =>
      cases hxs : optMap f xs with
      | none =>
        simp only [optMap, hx, hxs]
        constructor
        · intro _
          obtain ⟨z, hz, hzn⟩ := ih.mp hxs
          exact ⟨z, List.mem_cons_of_mem _ hz, hzn⟩
        · intro _; trivial
      | some ys =>
        simp only [optMap, hx, hxs]
        constructor
        · intro hc; exact absurd hc (by simp)
        · rintro ⟨z, hz, hzn⟩
          rcases List.mem_cons.mp hz with hz | hz
          · subst hz; rw [hx] at hzn; exact absurd hzn (by simp)
          · obtain ⟨w, hw, hwn⟩ : ∃ x ∈ xs, f x = none := ⟨z, hz, hzn⟩
            have : optMap f xs = none := ih.mpr ⟨w, hw, hwn⟩
            rw [hxs] at this
            exact absurd this (by simp)

theorem optMap_mem_iff : ∀ {l : List α} {ys : List β}, optMap f l = some ys →
    ∀ e, e ∈ ys ↔ ∃ x ∈ l, f x = some e := by
  intro l
  induction l with
  | nil =>
    intro ys h e
    simp only [optMap, Option.some.injEq] at h
    subst h
    simp
  | cons x xs ih =>
    intro ys h e
    cases hx : f x with
    | none => rw [optMap, hx] at h; exact absurd h (by simp)
    | some y =>
      rw [optMap, hx] at h
      cases hxs : optMap f xs with
      | none => rw [hxs] at h; exact absurd h (by simp)
      | some ys' =>
        rw [hxs] at h
        simp only [Option.some.injEq] at h
        subst h
        constructor
        · intro he
          rcases List.mem_cons.mp he with he | he
          · exact ⟨x, List.mem_cons_self _ _, by rw [hx, he]⟩
          · obtain ⟨z, hz, hze⟩ := (ih hxs e).mp he
            exact ⟨z, List.mem_cons_of_mem _ hz, hze⟩
        · rintro ⟨z, hz, hze⟩
          rcases List.mem_cons.mp hz with hz | hz
          · subst hz
            rw [hx] at hze
            simp only [Option.some.injEq] at hze
            subst hze
            exact List.mem_cons_self _ _
          · exact List.mem_cons_of_mem _ ((ih hxs e).mpr ⟨z, hz, hze⟩)

theorem optMap_map_eq {γ : Type} {g : α → γ} {h : β → γ}
    (hcomm : ∀ x y, f x = some y → h y = g x) :
    ∀ {l : List α} {ys : List β}, optMap f l = some ys → ys.map h = l.map g := by
  intro l
  induction l with
  | nil =>
    intro ys hl
    simp only [optMap, Option.some.injEq] at hl
    subst hl
    simp
  | cons x xs ih =>
    intro ys hl
    cases hx : f x with
    | none => rw [optMap, hx] at hl; exact absurd hl (by simp)
    | some y =>
      rw [optMap, hx] at hl
      cases hxs : optMap f xs with
      | none => rw [hxs] at hl; exact absurd hl (by simp)
      | some ys' =>
        rw [hxs] at hl
        simp only [Option.some.injEq] at hl
        subst hl
        simp only [List.map_cons]
        rw [hcomm x y hx, ih hxs]

theorem optMap_perm : ∀ {l₁ l₂ : List α}, l₁.Perm l₂ →
    ∀ {ys₁ ys₂ : List β}, optMap f l₁ = some ys₁ → optMap f l₂ = some ys₂ →
      ys₁.Perm ys₂ := by
  intro l₁ l₂ hp
  induction hp with
  | nil =>
    intro ys₁ ys₂ h₁ h₂
    simp only [optMap, Option.some.injEq] at h₁ h₂
    subst h₁; subst h₂
    exact List.Perm.refl _
  | cons x hp ih =>
    intro ys₁ ys₂ h₁ h₂
    cases hx : f x with
    | none => rw [optMap, hx] at h₁; exact absurd h₁ (by simp)
    | some y =>
      rw [optMap, hx] at h₁
      rw [optMap, hx] at h₂
      cases ht₁ : optMap f _ with
      | none => rw [ht₁] at h₁; exact absurd h₁ (by simp)
      | some t₁ =>
        rw [ht₁] at h₁
        cases ht₂ : optMap f _ with
        | none => rw [ht₂] at h₂; exact absurd h₂ (by simp)
        | some t₂ =>
          rw [ht₂] at h₂
          simp only [Option.some.injEq] at h₁ h₂
          subst h₁; subst h₂
          exact List.Perm.cons y (ih ht₁ ht₂)
  | swap x y l =>
    intro ys₁ ys₂ h₁ h₂
    cases hx : f x with
    | none =>
      rw [optMap, hx] at h₂
      rw [optMap] at h₁
      cases hy : f y with
      | none => rw [hy] at h₁; exact absurd h₁ (by simp)
      | some b => rw [hy, optMap, hx] at h₁; exact absurd h₁ (by simp)
    | some a =>
      cases hy : f y with
      | none =>
        rw [optMap, hy] at h₁
        rw [optMap, hx, optMap, hy] at h₂
        exact absurd h₂ (by simp)
      | some b =>
        rw [optMap, hy, optMap, hx] at h₁
        rw [optMap, hx, optMap, hy] at h₂
        cases hl : optMap f l with
        | none =>
          rw [hl] at h₁
          exact absurd h₁ (by simp)
        | some t =>
          rw [hl] at h₁
          rw [hl] at h₂
          simp only [Option.some.injEq] at h₁ h₂
          subst h₁; subst h₂
          exact List.Perm.swap a b t
  | trans hp₁ hp₂ ih₁ ih₂ =>
    intro ys₁ ys₂ h₁ h₂
    rename_i la lb lc
    cases hmid : optMap f lb with
    | none =>
      obtain ⟨x, hx, hxn⟩ := optMap_eq_none_iff.mp hmid
      have hx₁ : x ∈ la := hp₁.mem_iff.mpr hx
      have : optMap f la = none := optMap_eq_none_iff.mpr ⟨x, hx₁, hxn⟩
      rw [h₁] at this
      exact absurd this (by simp)
    | some ysm =>
      exact (ih₁ h₁ hmid).trans (ih₂ hmid h₂)

end OptMapLemmas

/-- Two sorted permutations of each other agree, provided the order is
antisymmetric on the elements actually present. -/
theorem perm_sorted_eq {α : Type} {r : α → α → Prop} :
    ∀ {l₁ l₂ : List α}, l₁.Perm l₂ → l₁.Pairwise r → l₂.Pairwise r →
      (∀ a ∈ l₁, ∀ b ∈ l₁, r a b → r b a → a = b) → l₁ = l₂ := by
  intro l₁
  induction l₁ with
  | nil =>
    intro l₂ hp _ _ _
    exact hp.nil_eq
  | cons a t ih =>
    intro l₂ hp hs₁ hs₂ hanti
    have ha2 : a ∈ l₂ := hp.mem_iff.mp (List.mem_cons_self a t)
    cases l₂ with
    | nil => exact absurd ha2 (List.not_mem_nil a)
    | cons b t₂ =>
      by_cases hab : a = b
      · subst hab
        have hp' : t.Perm t₂ := hp.cons_inv
        have ht := ih hp' (List.pairwise_cons.mp hs₁).2 (List.pairwise_cons.mp hs₂).2
          (fun x hx y hy hxy hyx =>
            hanti x (List.mem_cons_of_mem _ hx) y (List.mem_cons_of_mem _ hy) hxy hyx)
        rw [ht]
      · have hb1 : b ∈ a :: t := hp.mem_iff.mpr (List.mem_cons_self b t₂)
        have hb_t : b ∈ t := by
          rcases List.mem_cons.mp hb1 with hh | hh
          · exact absurd hh.symm hab
          · exact hh
        have ha_t2 : a ∈ t₂ := by
          rcases List.mem_cons.mp ha2 with hh | hh
          · exact absurd hh hab
          · exact hh
        have hrab : r a b := (List.pairwise_cons.mp hs₁).1 b hb_t
        have hrba : r b a := (List.pairwise_cons.mp hs₂).1 a ha_t2
        exact absurd (hanti a (List.mem_cons_self a t) b hb1 hrab hrba) hab

/-- C8: `process_reserve` evaluates its checks in the order flight-exists,
now-parses, flight-datetime-parses, not-too-late, seat-not-held,
seat-classifiable, and returns the error of the first failing check with
the state unchanged. -/
theorem c8_reserve_first_failure_wins (sys : ReservationSystem)
    (now uid date : String) (fid : Nat) (sid : String) :
    (alookup sys.flights fid = none →
      process_reserve sys now uid date fid sid = some ("reserve: flight not found", sys)) ∧
    (∀ flight, alookup sys.flights fid = some flight → parseDateTime now = none →
      process_reserve sys now uid date fid sid = some ("reserve: invalid datetime", sys)) ∧
    (∀ flight ndt, alookup sys.flights fid = some flight → parseDateTime now = some ndt →
      get_flight_datetime date flight = none →
      process_reserve sys now uid date fid sid
        = some ("reserve: invalid flight datetime", sys)) ∧
    (∀ flight ndt fdt, alookup sys.flights fid = some flight →
      parseDateTime now = some ndt → get_flight_datetime date flight = some fdt →
      is_too_late ndt fdt = true →
      process_reserve sys now uid date fid sid = some ("reserve: too late", sys)) ∧
    (∀ flight ndt fdt, alookup sys.flights fid = some flight →
      parseDateTime now = some ndt → get_flight_datetime date flight = some fdt →
      is_too_late ndt fdt = false → is_seat_reserved sys date fid sid = true →
      process_reserve sys now uid date fid sid = some ("reserve: already reserved", sys)) ∧
    (∀ flight ndt fdt, alookup sys.flights fid = some flight →
      parseDateTime now = some ndt → get_flight_datetime date flight = some fdt →
      is_too_late ndt fdt = false → is_seat_reserved sys date fid sid = false →
      get_seat_class flight sid = some none →
      process_reserve sys now uid date fid sid = some ("reserve: invalid seat_id", sys)) := by
  refine ⟨?_, ?_, ?_, ?_, ?_, ?_⟩
  · intro h
    simp [process_reserve, h]
  · intro flight hf hn
    simp [process_reserve, hf, hn]
  · intro flight ndt hf hn hd
    simp [process_reserve, hf, hn, hd]
  · intro flight ndt fdt hf hn hd hl
    simp [process_reserve, hf, hn, hd, hl]
  · intro flight ndt fdt hf hn hd hl hh
    simp [process_reserve, hf, hn, hd, hl, hh]
  · intro flight ndt fdt hf hn hd hl hh hc
    simp [process_reserve, hf, hn, hd, hl, hh, hc]

/-- Witness for C8: Bob's attempt on Alice's held seat, before the
deadline, fails with `already reserved`. -/
theorem c8_reserve_first_failure_wins_witness :
    process_reserve sysB "2024/03/15-07:00:00" "bob" "2024/03/15" 1 "1A"
      = some ("reserve: already reserved", sysB) :=
  (c8_reserve_first_failure_wins sysB "2024/03/15-07:00:00" "bob" "2024/03/15" 1
    "1A").2.2.2.2.1 fA 1710486000 1710496800 (by decide) (by decide) (by decide)
    (by decide) (by decide)

/-- C4: `process_cancel` checks existence-and-not-cancelled first, then
ownership, and only then the datetime and deadline checks; a second
cancel of a cancelled id reports `reservation not found`, and a
non-owner's cancel reports `unauthorized operation` for every `now`,
parsable or not. -/
theorem c4_cancel_precondition_order (sys : ReservationSystem) (now uid : String)
    (rid : Nat) :
    (alookup sys.reservations rid = none →
      process_cancel sys now uid rid = some ("cancel: reservation not found", sys)) ∧
    (∀ r, alookup sys.reservations rid = some r → r.is_cancelled = true →
      process_cancel sys now uid rid = some ("cancel: reservation not found", sys)) ∧
    (∀ r, alookup sys.reservations rid = some r → r.is_cancelled = false →
      r.user_id ≠ uid →
      process_cancel sys now uid rid = some ("cancel: unauthorized operation", sys)) ∧
    (∀ r flight, alookup sys.reservations rid = some r → r.is_cancelled = false →
      r.user_id = uid → alookup sys.flights r.flight_id = some flight →
      parseDateTime now = none →
      process_cancel sys now uid rid = some ("cancel: invalid datetime", sys)) ∧
    (∀ sys', process_cancel sys now uid rid = some ("cancel: success", sys') →
      ∀ now' uid', process_cancel sys' now' uid' rid
        = some ("cancel: reservation not found", sys')) := by
  refine ⟨?_, ?_, ?_, ?_, ?_⟩
  · intro h
    simp [process_cancel, h]
  · intro r hres hcan
    simp [process_cancel, hres, hcan]
  · intro r hres hcan huser
    simp [process_cancel, hres, hcan, huser]
  · intro r flight hres hcan huser hf hn
    simp [process_cancel, hres, hcan, huser, hf, hn]
  · intro sys' h now' uid'
    rcases cancel_inv h with ⟨_, hbad⟩ |
      ⟨r, flight, ndt, fdt, hres, hcan, huser, hf, hn, hd, hl, hout, hfl, hresL, hocc, hnext⟩
    · rcases hbad with hb | hb | hb | hb | hb <;> exact absurd hb (by decide)
    · have hlook : alookup sys'.reservations rid = some (cancelledRes r) := by
        rw [hresL]
        exact alookup_aset_self _ _ _
      simp [process_cancel, hlook, cancelledRes]

/-- Witness for C4: Bob cannot cancel Alice's reservation, even with an
unparsable `now`. -/
theorem c4_cancel_precondition_order_witness :
    process_cancel sysB "not-a-datetime" "bob" 1
      = some ("cancel: unauthorized operation", sysB) :=
  (c4_cancel_precondition_order sysB "not-a-datetime" "bob" 1).2.2.1 resAlice
    (by decide) (by decide) (by decide)

/-- C2: `is_too_late` holds exactly when `now ≥ departure − 2h`, and with
all other preconditions met, reserve and cancel succeed strictly before
the cutoff and fail with `too late` at or after it. -/
theorem c2_deadline_rule :
    (∀ ndt fdt : Int, is_too_late ndt fdt = true ↔ fdt - 2 * 3600 ≤ ndt) ∧
    (∀ sys now uid date fid sid flight ndt fdt,
      alookup sys.flights fid = some flight →
      parseDateTime now = some ndt →
      get_flight_datetime date flight = some fdt →
      ((fdt - 2 * 3600 ≤ ndt →
        process_reserve sys now uid date fid sid = some ("reserve: too late", sys)) ∧
       (ndt < fdt - 2 * 3600 → is_seat_reserved sys date fid sid = false →
        ∀ idx price, get_seat_class flight sid = some (some (idx, price)) →
        ∃ sys', process_reserve sys now uid date fid sid
          = some (reserveSuccessMsg sys.next_reservation_id price, sys')))) ∧
    (∀ sys now uid rid r flight ndt fdt,
      alookup sys.reservations rid = some r → r.is_cancelled = false →
      r.user_id = uid →
      alookup sys.flights r.flight_id = some flight →
      parseDateTime now = some ndt →
      get_flight_datetime r.date flight = some fdt →
      ((fdt - 2 * 3600 ≤ ndt →
        process_cancel sys now uid rid = some ("cancel: too late", sys)) ∧
       (ndt < fdt - 2 * 3600 →
        ∃ sys', process_cancel sys now uid rid = some ("cancel: success", sys')))) := by
  refine ⟨?_, ?_, ?_⟩
  · intro ndt fdt
    simp [is_too_late]
  · intro sys now uid date fid sid flight ndt fdt hf hn hd
    constructor
    · intro hle
      have hl : is_too_late ndt fdt = true := by
        simp [is_too_late]
        omega
      simp [process_reserve, hf, hn, hd, hl]
    · intro hlt hh idx price hc
      have hl : is_too_late ndt fdt = false := by
        simp [is_too_late]
        omega
      refine ⟨{ sys with
          reservations := aset sys.reservations sys.next_reservation_id
            ⟨sys.next_reservation_id, uid, date, fid, sid, price, false⟩,
          seat_reservations := occ_set_true sys.seat_reservations date fid sid,
          next_reservation_id := sys.next_reservation_id + 1 }, ?_⟩
      simp [process_reserve, hf, hn, hd, hl, hh, hc, reserve_seat]
  · intro sys now uid rid r flight ndt fdt hres hcan huser hf hn hd
    constructor
    · intro hle
      have hl : is_too_late ndt fdt = true := by
        simp [is_too_late]
        omega
      simp [process_cancel, hres, hcan, huser, hf, hn, hd, hl]
    · intro hlt
      have hl : is_too_late ndt fdt = false := by
        simp [is_too_late]
        omega
      refine ⟨{ sys with
          reservations := aset sys.reservations rid (cancelledRes r),
          seat_reservations :=
            occ_set_false sys.seat_reservations r.date r.flight_id r.seat_id }, ?_⟩
      simp [process_cancel, hres, hcan, huser, hf, hn, hd, hl, unreserve_seat, cancelledRes]

/-- Witness for C2: at 08:30 for a 10:00 departure (exactly inside the
2-hour window) the reserve fails with `too late`. -/
theorem c2_deadline_rule_witness :
    process_reserve sysA "2024/03/15-08:30:00" "carol" "2024/03/15" 1 "2A"
      = some ("reserve: too late", sysA) :=
  (c2_deadline_rule.2.1 sysA "2024/03/15-08:30:00" "carol" "2024/03/15" 1 "2A"
    fA 1710491400 1710496800 (by decide) (by decide) (by decide)).1 (by decide)

theorem find_seat_class_eq_none_iff :
    ∀ (cls : List SeatClass) (row idx : Nat),
      find_seat_class cls row idx = none ↔ ∀ sc ∈ cls, sc.column < row := by
  intro cls
  induction cls with
  | nil => intro row idx; simp [find_seat_class]
  | cons sc rest ih =>
    intro row idx
    by_cases h : row ≤ sc.column
    · simp only [find_seat_class, if_pos h]
      constructor
      · intro hc
        exact absurd hc (by simp)
      · intro hall
        have := hall sc (List.mem_cons_self _ _)
        omega
    · simp only [find_seat_class, if_neg h]
      rw [ih row (idx + 1)]
      constructor
      · intro hall sc' hmem
        rcases List.mem_cons.mp hmem with hmem | hmem
        · subst hmem; omega
        · exact hall sc' hmem
      · intro hall sc' hmem
        exact hall sc' (List.mem_cons_of_mem _ hmem)

theorem find_seat_class_eq_some_iff :
    ∀ (cls : List SeatClass) (row idx i p : Nat),
      find_seat_class cls row idx = some (i, p) ↔
        ∃ j sc, cls[j]? = some sc ∧ row ≤ sc.column ∧
          (∀ k sck, k < j → cls[k]? = some sck → sck.column < row) ∧
          i = idx + j + 1 ∧ p = sc.price := by
  intro cls
  induction cls with
  | nil => intro row idx i p; simp [find_seat_class]
  | cons sc rest ih =>
    intro row idx i p
    by_cases h : row ≤ sc.column
    · simp only [find_seat_class, if_pos h, Option.some.injEq, Prod.mk.injEq]
      constructor
      · rintro ⟨hi, hp⟩
        refine ⟨0, sc, by simp, h, ?_, by omega, hp.symm⟩
        intro k sck hk _
        exact absurd hk (Nat.not_lt_zero k)
      · rintro ⟨j, sc', hj, hcov, hfirst, hi, hp⟩
        cases j with
        | zero =>
          simp only [List.getElem?_cons_zero, Option.some.injEq] at hj
          subst hj
          exact ⟨by omega, hp.symm⟩
        | succ j' =>
          have := hfirst 0 sc (by omega) (by simp)
          omega
    · simp only [find_seat_class, if_neg h]
      rw [ih row (idx + 1) i p]
      constructor
      · rintro ⟨j, sc', hj, hcov, hfirst, hi, hp⟩
        refine ⟨j + 1, sc', by simpa using hj, hcov, ?_, by omega, hp⟩
        intro k sck hk hkj
        cases k with
        | zero =>
          simp only [List.getElem?_cons_zero, Option.some.injEq] at hkj
          subst hkj
          omega
        | succ k' =>
          exact hfirst k' sck (by omega) (by simpa using hkj)
      · rintro ⟨j, sc', hj, hcov, hfirst, hi, hp⟩
        cases j with
        | zero =>
          simp only [List.getElem?_cons_zero, Option.some.injEq] at hj
          subst hj
          exact absurd hcov h
        | succ j' =>
          refine ⟨j', sc', by simpa using hj, hcov, ?_, by omega, hp⟩
          intro k sck hk hkj
          exact hfirst (k + 1) sck (by omega) (by simpa using hkj)

theorem find_seat_class_isSome :
    ∀ (cls : List SeatClass) (row : Nat), (∃ sc ∈ cls, row ≤ sc.column) →
      ∀ idx, (find_seat_class cls row idx).isSome := by
  intro cls
  induction cls with
  | nil => rintro row ⟨sc, hmem, _⟩ idx; exact absurd hmem (List.not_mem_nil sc)
  | cons sc rest ih =>
    rintro row ⟨sc', hmem, hcov⟩ idx
    by_cases h : row ≤ sc.column
    · simp [find_seat_class, h]
    · simp only [find_seat_class, if_neg h]
      rcases List.mem_cons.mp hmem with hmem | hmem
      · subst hmem; omega
      · exact ih row ⟨sc', hmem, hcov⟩ (idx + 1)

/-- Unfolding `get_seat_class` on a seat id whose character list splits
into a row part and a final single-byte character. -/
theorem get_seat_class_eq (f : Flight) (s : String) (ds : List Char) (c : Char)
    (hs : s.data = ds ++ [c]) (hc : c.toNat < 128) :
    get_seat_class f s
      = some (match parse_u32 ds with
          | none => none
          | some row =>
            match SeatType.from_char c with
            | none => none
            | some _ => find_seat_class f.seat_classes row 0) := by
  unfold get_seat_class
  simp only [hs, List.getLast?_concat, List.dropLast_concat]
  rw [if_neg (by omega)]

/-- Characters accepted by `SeatType::from_char` are single-byte. -/
theorem from_char_ascii {c : Char} {t : SeatType} (h : SeatType.from_char c = some t) :
    c.toNat < 128 := by
  unfold SeatType.from_char at h
  by_cases h1 : c = 'A'
  · subst h1; decide
  · rw [if_neg h1] at h
    by_cases h2 : c = 'B'
    · subst h2; decide
    · rw [if_neg h2] at h
      by_cases h3 : c = 'C'
      · subst h3; decide
      · rw [if_neg h3] at h
        by_cases h4 : c = 'D'
        · subst h4; decide
        · rw [if_neg h4] at h
          exact absurd h (by simp)

/-- `process_reserve` can only panic through `get_seat_class`. -/
theorem reserve_none_inv {sys : ReservationSystem} {now uid date : String} {fid : Nat}
    {sid : String} (h : process_reserve sys now uid date fid sid = none) :
    ∃ flight, alookup sys.flights fid = some flight ∧ get_seat_class flight sid = none := by
  unfold process_reserve at h
  cases hf : alookup sys.flights fid with
  | none => simp only [hf] at h; exact absurd h (by simp)
  | some flight =>
    simp only [hf] at h
    cases hn : parseDateTime now with
    | none => simp only [hn] at h; exact absurd h (by simp)
    | some ndt =>
      simp only [hn] at h
      cases hd : get_flight_datetime date flight with
      | none => simp only [hd] at h; exact absurd h (by simp)
      | some fdt =>
        simp only [hd] at h
        cases hl : is_too_late ndt fdt with
        | true => simp only [hl, if_true] at h; exact absurd h (by simp)
        | false =>
          simp only [hl, Bool.false_eq_true, if_false] at h
          cases hh : is_seat_reserved sys date fid sid with
          | true => simp only [hh, if_true] at h; exact absurd h (by simp)
          | false =>
            simp only [hh, Bool.false_eq_true, if_false] at h
            cases hc : get_seat_class flight sid with
            | none => exact ⟨flight, rfl, hc⟩
            | some inner =>
              simp only [hc] at h
              cases inner with
              | none => exact absurd h (by simp)
              | some pr => exact absurd h (by simp)

/-- Counterexample for C6: the row-0 seat id `"0A"` is not rejected —
`get_seat_class` classifies it into class 1 at its price, because the
code never checks that the parsed row is positive (`0 <= column` holds
for every class). -/
theorem c6_classify_row_zero_counterexample :
    get_seat_class fA "0A" = some (some (1, 100)) := by decide

/-- C6 (amended): classification parses the seat id into a row part and
a trailing letter; with a valid letter it returns the 1-based index and
price of the first seat class whose bound covers the row, and is invalid
exactly when the letter is unrecognized, the row part fails to parse as
a `u32`, or every class bound is below the row.  Row 0 is covered by any
first class (it is not rejected). -/
theorem c6_classify_characterization (f : Flight) (sid : String) (ds : List Char)
    (c : Char) (hs : sid.data = ds ++ [c]) :
    (∀ t, SeatType.from_char c = some t → parse_u32 ds = none →
      get_seat_class f sid = some none) ∧
    (c.toNat < 128 → SeatType.from_char c = none → get_seat_class f sid = some none) ∧
    (∀ t row, SeatType.from_char c = some t → parse_u32 ds = some row →
      ((get_seat_class f sid = some none ↔ ∀ sc ∈ f.seat_classes, sc.column < row) ∧
       (∀ i p, get_seat_class f sid = some (some (i, p)) ↔
          ∃ j sc, f.seat_classes[j]? = some sc ∧ row ≤ sc.column ∧
            (∀ k sck, k < j → f.seat_classes[k]? = some sck → sck.column < row) ∧
            i = j + 1 ∧ p = sc.price))) := by
  refine ⟨?_, ?_, ?_⟩
  · intro t ht hrow
    rw [get_seat_class_eq f sid ds c hs (from_char_ascii ht)]
    simp only [hrow]
  · intro hc hl
    rw [get_seat_class_eq f sid ds c hs hc]
    cases hrow : parse_u32 ds with
    | none => simp only
    | some row => simp only [hl]
  · intro t row ht hrow
    have hgc : get_seat_class f sid = some (find_seat_class f.seat_classes row 0) := by
      rw [get_seat_class_eq f sid ds c hs (from_char_ascii ht)]
      simp only [hrow, ht]
    constructor
    · rw [hgc]
      simp only [Option.some.injEq]
      exact find_seat_class_eq_none_iff f.seat_classes row 0
    · intro i p
      rw [hgc]
      simp only [Option.some.injEq]
      rw [find_seat_class_eq_some_iff]
      constructor
      · rintro ⟨j, sc, hj, hcov, hfirst, hi, hp⟩
        exact ⟨j, sc, hj, hcov, hfirst, by omega, hp⟩
      · rintro ⟨j, sc, hj, hcov, hfirst, hi, hp⟩
        exact ⟨j, sc, hj, hcov, hfirst, by omega, hp⟩

/-- Witness for C6 (amended): seat `"12B"` of the scenario flight is
classified into class 1 at price 100. -/
theorem c6_classify_characterization_witness :
    get_seat_class fA "12B" = some (some (1, 100)) :=
  (((c6_classify_characterization fA "12B" ['1', '2'] 'B' (by decide)).2.2 SeatType.B 12
    (by decide) (by decide)).2 1 100).mpr
    ⟨0, ⟨20, 100⟩, by decide, by decide, fun k sck hk _ => absurd hk (Nat.not_lt_zero k),
      rfl, rfl⟩

/-- Counterexample for C7: with a seat class whose bound is 25, a
reserve of row 25 — far beyond the 20-row universe — succeeds, returning
reservation id 1 at price 50 and consuming an id. -/
theorem c7_row_beyond_20_counterexample :
    (process_reserve sysBig "2024/03/15-07:00:00" "alice" "2024/03/15" 1 "25A").map
        Prod.fst = some "reserve: 1 50" ∧
    (process_reserve sysBig "2024/03/15-07:00:00" "alice" "2024/03/15" 1 "25A").map
        (fun r => r.2.next_reservation_id) = some 2 :=
  ⟨by decide, by decide⟩

/-- C7 (amended): when every seat-class bound in the catalog is at most
20, a reserve whose (validly lettered) seat row exceeds 20 never panics
and never succeeds — the state is returned unchanged.  (Rows beyond the
last class bound are unreservable; the "20" itself comes from the class
bounds, not from a hardcoded universe.) -/
theorem c7_rows_beyond_bounds_unreservable (sys : ReservationSystem)
    (now uid date : String) (fid : Nat) (sid : String) (ds : List Char) (c : Char)
    (t : SeatType) (row : Nat)
    (hs : sid.data = ds ++ [c])
    (hbound : ∀ p ∈ sys.flights, ∀ sc ∈ p.2.seat_classes, sc.column ≤ 20)
    (ht : SeatType.from_char c = some t)
    (hrow : parse_u32 ds = some row) (hgt : 20 < row) :
    process_reserve sys now uid date fid sid ≠ none ∧
    ∀ out sys', process_reserve sys now uid date fid sid = some (out, sys') →
      sys' = sys := by
  have hclass : ∀ flight, alookup sys.flights fid = some flight →
      get_seat_class flight sid = some none := by
    intro flight hf
    rw [get_seat_class_eq flight sid ds c hs (from_char_ascii ht)]
    simp only [hrow, ht]
    have hfind : find_seat_class flight.seat_classes row 0 = none := by
      rw [find_seat_class_eq_none_iff]
      intro sc hmem
      have hp := alookup_some_mem hf
      have := hbound (fid, flight) hp sc hmem
      omega
    rw [hfind]
  constructor
  · intro hnone
    obtain ⟨flight, hf, hcn⟩ := reserve_none_inv hnone
    rw [hclass flight hf] at hcn
    exact absurd hcn (by simp)
  · intro out sys' h
    rcases reserve_inv h with ⟨hsys, _⟩ |
      ⟨flight, _, _, idx, price, hf, _, _, _, _, hcl, _⟩
    · exact hsys
    · rw [hclass flight hf] at hcl
      simp at hcl

/-- Witness for C7 (amended): on the scenario catalog (bounds ≤ 20),
reserving row 25 does not panic. -/
theorem c7_rows_beyond_bounds_unreservable_witness :
    process_reserve sysA "2024/03/15-07:00:00" "alice" "2024/03/15" 1 "25A" ≠ none :=
  (c7_rows_beyond_bounds_unreservable sysA "2024/03/15-07:00:00" "alice" "2024/03/15"
    1 "25A" ['2', '5'] 'A' SeatType.A 25 (by decide) (by decide) (by decide) (by decide)
    (by decide)).1

theorem seat_id_data (row : Nat) (t : SeatType) :
    (s!"{row}{t.as_char}").data = (toString row).data ++ [t.as_char] := by
  simp [instToStringString, instToStringChar, Char.toString]

theorem from_char_as_char (t : SeatType) : SeatType.from_char t.as_char = some t := by
  cases t <;> rfl

theorem as_char_ascii (t : SeatType) : t.as_char.toNat < 128 := by
  cases t <;> decide

theorem parse_u32_toString_small :
    ∀ row ∈ List.range' 1 20, parse_u32 (toString row).data = some row := by
  decide

theorem seat_display_isSome (sys : ReservationSystem) (flight : Flight) (date : String)
    (row : Nat) (t : SeatType)
    (hcover : ∃ sc ∈ flight.seat_classes, 20 ≤ sc.column)
    (hrow : row ∈ List.range' 1 20) :
    (seat_display sys flight date row t).isSome := by
  unfold seat_display
  by_cases hh : is_seat_reserved sys date flight.flight_id (s!"{row}{t.as_char}") = true
  · simp [hh]
  · simp only [hh, if_false]
    rw [get_seat_class_eq flight _ (toString row).data t.as_char (seat_id_data row t)
      (as_char_ascii t)]
    simp only [parse_u32_toString_small row hrow, from_char_as_char]
    have hle : row ≤ 20 := by
      obtain ⟨i, hi, hrw⟩ := List.mem_range'.mp hrow
      omega
    have hsome := find_seat_class_isSome flight.seat_classes row
      (by
        obtain ⟨sc, hm, hc⟩ := hcover
        exact ⟨sc, hm, by omega⟩) 0
    obtain ⟨pr, hpr⟩ := Option.isSome_iff_exists.mp hsome
    rw [hpr]
    obtain ⟨i, p⟩ := pr
    simp

theorem process_seat_search_ne_none (sys : ReservationSystem) (now date : String)
    (fid : Nat)
    (hcov : ∀ p ∈ sys.flights, ∃ sc ∈ p.2.seat_classes, 20 ≤ sc.column) :
    process_seat_search sys now date fid ≠ none := by
  unfold process_seat_search
  cases hf : alookup sys.flights fid with
  | none => simp
  | some flight =>
    have hcover := hcov (fid, flight) (alookup_some_mem hf)
    cases ho : optMap (fun t =>
        (optMap (fun row => seat_display sys flight date row t)
          (List.range' 1 20)).map String.join) SeatType.variants with
    | none =>
      obtain ⟨t, htm, htn⟩ := optMap_eq_none_iff.mp ho
      rw [Option.map_eq_none'] at htn
      obtain ⟨row, hrmem, hrn⟩ := optMap_eq_none_iff.mp htn
      have := seat_display_isSome sys flight date row t hcover hrmem
      rw [hrn] at this
      exact absurd this (by simp)
    | some lines => simp [ho]

/-- `process_cancel` can only panic through the flight `unwrap` on an
owned, active reservation whose flight is missing. -/
theorem cancel_none_inv {sys : ReservationSystem} {now uid : String} {rid : Nat}
    (h : process_cancel sys now uid rid = none) :
    ∃ r, alookup sys.reservations rid = some r ∧ r.is_cancelled = false ∧
      r.user_id = uid ∧ alookup sys.flights r.flight_id = none := by
  unfold process_cancel at h
  cases hres : alookup sys.reservations rid with
  | none => simp only [hres] at h; exact absurd h (by simp)
  | some r =>
    simp only [hres] at h
    cases hcan : r.is_cancelled with
    | true => simp only [hcan, if_true] at h; exact absurd h (by simp)
    | false =>
      simp only [hcan, Bool.false_eq_true, if_false] at h
      by_cases huser : r.user_id = uid
      · rw [if_neg (by simp [huser])] at h
        cases hf : alookup sys.flights r.flight_id with
        | none => exact ⟨r, rfl, hcan, huser, hf⟩
        | some flight =>
          simp only [hf] at h
          cases hn : parseDateTime now with
          | none => simp only [hn] at h; exact absurd h (by simp)
          | some ndt =>
            simp only [hn] at h
            cases hd : get_flight_datetime r.date flight with
            | none => simp only [hd] at h; exact absurd h (by simp)
            | some fdt =>
              simp only [hd] at h
              cases hl : is_too_late ndt fdt with
              | true => simp only [hl, if_true] at h; exact absurd h (by simp)
              | false =>
                simp only [hl, Bool.false_eq_true, if_false] at h
                exact absurd h (by simp)
      · rw [if_pos (by simp [huser])] at h
        exact absurd h (by simp)

theorem get_seat_class_ne_none (f : Flight) (sid : String) (h1 : sid.data ≠ [])
    (h2 : ∀ ch ∈ sid.data, ch.toNat < 128) : get_seat_class f sid ≠ none := by
  unfold get_seat_class
  cases hl : sid.data.getLast? with
  | none => exact absurd (List.getLast?_eq_none_iff.mp hl) h1
  | some c =>
    have hc := h2 c (List.mem_of_getLast?_eq_some hl)
    simp [Nat.not_le.mpr hc]

theorem process_get_reservations_ne_none (sys : ReservationSystem) (now uid : String)
    (hwf : ∀ p ∈ sys.reservations, ∃ f, alookup sys.flights p.2.flight_id = some f ∧
      (parse_datetime p.2.date f.departure_time).isSome) :
    process_get_reservations sys now uid ≠ none := by
  have hentries : gr_entries sys uid ≠ none := by
    intro hn
    obtain ⟨p, hpm, hpn⟩ := optMap_eq_none_iff.mp hn
    have hpm' : p ∈ sys.reservations := List.mem_of_mem_filter hpm
    obtain ⟨f, hf, hdt⟩ := hwf p hpm'
    obtain ⟨dt, hdt'⟩ := Option.isSome_iff_exists.mp hdt
    simp [gr_entry, hf, get_flight_datetime, hdt'] at hpn
  cases he : gr_entries sys uid with
  | none => exact absurd he hentries
  | some l₀ =>
    have hmemflights : ∀ e ∈ List.insertionSort grLE l₀,
        (alookup sys.flights e.2.2.flight_id).isSome := by
      intro e hem
      have hel : e ∈ l₀ := (List.perm_insertionSort grLE l₀).mem_iff.mp hem
      obtain ⟨p, hpm, hpe⟩ := (optMap_mem_iff he e).mp hel
      cases hf : alookup sys.flights p.2.flight_id with
      | none => simp [gr_entry, hf] at hpe
      | some f =>
        cases hd : get_flight_datetime p.2.date f with
        | none => simp [gr_entry, hf, hd] at hpe
        | some dt =>
          simp only [gr_entry, hf, hd, Option.some_bind, Option.bind_eq_bind,
            Option.pure_def, Option.some.injEq] at hpe
          rw [← hpe]
          simp [hf]
    unfold process_get_reservations gr_sorted
    rw [he]
    simp only [Option.map_some', Option.some_bind]
    cases ho : optMap (fun e =>
        (alookup sys.flights e.2.2.flight_id).map (gr_line e.2.2))
        (List.insertionSort grLE l₀) with
    | none =>
      obtain ⟨e, hem, hen⟩ := optMap_eq_none_iff.mp ho
      rw [Option.map_eq_none'] at hen
      have := hmemflights e hem
      rw [hen] at this
      exact absurd this (by simp)
    | some lines => simp [ho]

/-- Counterexample for C3: with all earlier checks passing, a reserve
whose seat-id string is empty panics (`seat_id.len() - 1` underflows in
`get_seat_class`); the handler does not return a result value. -/
theorem c3_totality_counterexample :
    process_reserve sysA "2024/03/15-07:00:00" "alice" "2024/03/15" 1 "" = none := by
  decide

/-- C3 (amended): the handlers return a result value except where
classification panics: reserve is total whenever the seat id is
nonempty with single-byte characters, cancel whenever every ledger entry
references a catalogued flight, seat-search whenever every flight's
classes cover rows 1–20, get-reservations whenever the ledger is
well-formed, and flight-search unconditionally. -/
theorem c3_handlers_no_panic (sys : ReservationSystem) :
    (∀ now uid date fid sid, sid.data ≠ [] → (∀ ch ∈ sid.data, ch.toNat < 128) →
      process_reserve sys now uid date fid sid ≠ none) ∧
    (∀ now uid rid, (∀ p ∈ sys.reservations, (alookup sys.flights p.2.flight_id).isSome) →
      process_cancel sys now uid rid ≠ none) ∧
    (∀ now date fid, (∀ p ∈ sys.flights, ∃ sc ∈ p.2.seat_classes, 20 ≤ sc.column) →
      process_seat_search sys now date fid ≠ none) ∧
    (∀ now uid, (∀ p ∈ sys.reservations, ∃ f, alookup sys.flights p.2.flight_id = some f ∧
        (parse_datetime p.2.date f.departure_time).isSome) →
      process_get_reservations sys now uid ≠ none) ∧
    (∀ now date dep arr, ∃ out, process_flight_search sys now date dep arr = out) := by
  refine ⟨?_, ?_, ?_, ?_, ?_⟩
  · intro now uid date fid sid h1 h2 hn
    obtain ⟨flight, _, hcn⟩ := reserve_none_inv hn
    exact get_seat_class_ne_none flight sid h1 h2 hcn
  · intro now uid rid hwf hn
    obtain ⟨r, hres, _, _, hfn⟩ := cancel_none_inv hn
    have := hwf (rid, r) (alookup_some_mem hres)
    rw [hfn] at this
    exact absurd this (by simp)
  · intro now date fid hcov
    exact process_seat_search_ne_none sys now date fid hcov
  · intro now uid hwf
    exact process_get_reservations_ne_none sys now uid hwf
  · intro now date dep arr
    exact ⟨_, rfl⟩

/-- Witness for C3 (amended): a reserve with the nonempty ASCII seat id
`"1A"` cannot panic. -/
theorem c3_handlers_no_panic_witness :
    process_reserve sysA "2024/03/15-07:00:00" "alice" "2024/03/15" 1 "1A" ≠ none :=
  (c3_handlers_no_panic sysA).1 "2024/03/15-07:00:00" "alice" "2024/03/15" 1 "1A"
    (by decide) (by decide)

/-- C1: in every reachable state at most one active reservation holds
any `(date, flightId, seatId)`; a reserve on a currently-held key never
mutates the state, and when the flight/datetime/deadline checks pass it
fails with `already reserved`. -/
theorem c1_no_double_booking (sys : ReservationSystem) (h : Reachable sys) :
    (∀ k, activeCount sys k ≤ 1) ∧
    (∀ now uid date fid sid, is_seat_reserved sys date fid sid = true →
      ((∀ out sys', process_reserve sys now uid date fid sid = some (out, sys') →
          sys' = sys) ∧
       (∀ flight ndt fdt, alookup sys.flights fid = some flight →
          parseDateTime now = some ndt → get_flight_datetime date flight = some fdt →
          is_too_late ndt fdt = false →
          process_reserve sys now uid date fid sid
            = some ("reserve: already reserved", sys)))) := by
  have g := reachable_goodState h
  refine ⟨g.at_most_one, ?_⟩
  intro now uid date fid sid hheld
  constructor
  · intro out sys' hcall
    rcases reserve_inv hcall with ⟨hsys, _⟩ |
      ⟨flight, ndt, fdt, idx, price, _, _, _, _, hh, _⟩
    · exact hsys
    · rw [hheld] at hh
      exact absurd hh (by simp)
  · intro flight ndt fdt hf hn hd hl
    simp [process_reserve, hf, hn, hd, hl, hheld]

/-- Witness for C1: after Alice holds 1A, the key has one active holder
and Bob's otherwise-valid reserve fails with `already reserved`. -/
theorem c1_no_double_booking_witness :
    activeCount sysB ("2024/03/15", 1, "1A") ≤ 1 ∧
    process_reserve sysB "2024/03/15-07:00:00" "bob" "2024/03/15" 1 "1A"
      = some ("reserve: already reserved", sysB) := by
  have h := c1_no_double_booking sysB
    ⟨loadsA, [Command.reserve "2024/03/15-07:00:00" "alice" "2024/03/15" 1 "1A"],
      by decide⟩
  exact ⟨h.1 ("2024/03/15", 1, "1A"),
    (h.2 "2024/03/15-07:00:00" "bob" "2024/03/15" 1 "1A" (by decide)).2 fA
      1710486000 1710496800 (by decide) (by decide) (by decide) (by decide)⟩

/-- C5: from a reachable state, a failing reserve returns one of the six
errors with the state unchanged, and a successful reserve appends
exactly one non-cancelled reservation with the classify-computed price
under the current counter, marks exactly that seat held, increments the
counter, and reports the id and price. -/
theorem c5_reserve_atomicity (sys : ReservationSystem) (h : Reachable sys) :
    ∀ now uid date fid sid out sys',
      process_reserve sys now uid date fid sid = some (out, sys') →
      ((sys' = sys ∧
        (out = "reserve: flight not found" ∨ out = "reserve: invalid datetime" ∨
         out = "reserve: invalid flight datetime" ∨ out = "reserve: too late" ∨
         out = "reserve: already reserved" ∨ out = "reserve: invalid seat_id")) ∨
       (∃ flight idx price,
         alookup sys.flights fid = some flight ∧
         get_seat_class flight sid = some (some (idx, price)) ∧
         out = reserveSuccessMsg sys.next_reservation_id price ∧
         sys'.flights = sys.flights ∧
         sys'.reservations = sys.reservations ++
           [(sys.next_reservation_id,
             ⟨sys.next_reservation_id, uid, date, fid, sid, price, false⟩)] ∧
         sys'.next_reservation_id = sys.next_reservation_id + 1 ∧
         is_seat_reserved sys' date fid sid = true ∧
         (∀ d' fid' sid', ¬(d' = date ∧ fid' = fid ∧ sid' = sid) →
           is_seat_reserved sys' d' fid' sid' = is_seat_reserved sys d' fid' sid'))) := by
  intro now uid date fid sid out sys' hcall
  have g := reachable_goodState h
  rcases reserve_inv hcall with herr |
    ⟨flight, ndt, fdt, idx, price, hf, hn, hd, hl, hh, hc, hout, hfl, hres, hocc, hnext⟩
  · exact Or.inl herr
  · right
    have hfresh : sys.next_reservation_id ∉ sys.reservations.map Prod.fst := by
      intro hmem
      obtain ⟨p, hp, hpk⟩ := List.mem_map.mp hmem
      have := g.ids_lt p hp
      omega
    refine ⟨flight, idx, price, hf, hc, hout, hfl, ?_, hnext, ?_, ?_⟩
    · rw [hres, aset_of_not_mem hfresh]
    · unfold is_seat_reserved
      rw [hocc]
      exact occLookup_set_true_self _ _ _ _
    · intro d' fid' sid' hk
      unfold is_seat_reserved
      rw [hocc]
      exact occLookup_set_true_other _ _ _ _ hk

/-- Witness for C5: Alice's reserve from the freshly loaded catalog
appends reservation 1 and bumps the counter to 2. -/
theorem c5_reserve_atomicity_witness :
    sysB.next_reservation_id = sysA.next_reservation_id + 1 := by
  have h := c5_reserve_atomicity sysA ⟨loadsA, [], by decide⟩ "2024/03/15-07:00:00"
    "alice" "2024/03/15" 1 "1A" "reserve: 1 100" sysB (by decide)
  rcases h with ⟨_, habs⟩ | ⟨_, _, _, _, _, _, _, _, hnext, _, _⟩
  · rcases habs with hb | hb | hb | hb | hb | hb <;> exact absurd hb (by decide)
  · exact hnext

/-- C10: in every reachable state each stored reservation references a
catalogued flight whose date/departure-time pair parses, so the internal
lookups of cancel and get-reservations never panic. -/
theorem c10_ledger_wellformed (sys : ReservationSystem) (h : Reachable sys) :
    (∀ p ∈ sys.reservations, ∃ f, alookup sys.flights p.2.flight_id = some f ∧
      (parse_datetime p.2.date f.departure_time).isSome) ∧
    (∀ now uid rid, process_cancel sys now uid rid ≠ none) ∧
    (∀ now uid, process_get_reservations sys now uid ≠ none) := by
  have g := reachable_goodState h
  refine ⟨g.ledger_flights, ?_, ?_⟩
  · intro now uid rid hn
    obtain ⟨r, hres, _, _, hfn⟩ := cancel_none_inv hn
    obtain ⟨f, hf, _⟩ := g.ledger_flights (rid, r) (alookup_some_mem hres)
    rw [hfn] at hf
    exact absurd hf (by simp)
  · intro now uid
    exact process_get_reservations_ne_none sys now uid g.ledger_flights

/-- Witness for C10: in the state reached after Alice's reserve, neither
a cancel by a stranger nor Alice's listing can panic. -/
theorem c10_ledger_wellformed_witness :
    process_cancel sysB "bad-datetime" "eve" 1 ≠ none ∧
    process_get_reservations sysB "x" "alice" ≠ none := by
  have h := c10_ledger_wellformed sysB
    ⟨loadsA, [Command.reserve "2024/03/15-07:00:00" "alice" "2024/03/15" 1 "1A"],
      by decide⟩
  exact ⟨h.2.1 "bad-datetime" "eve" 1, h.2.2 "x" "alice"⟩

theorem gr_entry_spec {sys : ReservationSystem} {p : Nat × Reservation}
    {e : Int × Nat × Reservation} (h : gr_entry sys p = some e) :
    e.2.1 = p.2.reservation_id ∧ e.2.2 = p.2 ∧
    ∃ f, alookup sys.flights p.2.flight_id = some f ∧
      get_flight_datetime p.2.date f = some e.1 := by
  cases hf : alookup sys.flights p.2.flight_id with
  | none => simp [gr_entry, hf] at h
  | some f =>
    cases hd : get_flight_datetime p.2.date f with
    | none => simp [gr_entry, hf, hd] at h
    | some dt =>
      simp only [gr_entry, hf, hd, Option.some_bind, Option.bind_eq_bind,
        Option.pure_def, Option.some.injEq] at h
      rw [← h]
      exact ⟨rfl, rfl, f, rfl, hd⟩

theorem grLE_key_eq {a b : Int × Nat × Reservation} (h1 : grLE a b) (h2 : grLE b a) :
    a.1 = b.1 ∧ a.2.1 = b.2.1 := by
  rcases h1 with h1 | ⟨he1, hn1⟩ <;> rcases h2 with h2 | ⟨he2, hn2⟩ <;>
    constructor <;> omega

theorem fsLE_key_eq {a b : String × Nat × Flight} (h1 : fsLE a b) (h2 : fsLE b a) :
    a.1 = b.1 ∧ a.2.1 = b.2.1 := by
  rcases h1 with h1 | ⟨he1, hn1⟩
  · rcases h2 with h2 | ⟨he2, hn2⟩
    · exact absurd (lt_trans h1 h2) (lt_irrefl _)
    · rw [he2] at h1
      exact absurd h1 (lt_irrefl _)
  · rcases h2 with h2 | ⟨he2, hn2⟩
    · rw [he1] at h2
      exact absurd h2 (lt_irrefl _)
    · exact ⟨he1, Nat.le_antisymm hn1 hn2⟩

/-- `process_get_reservations` is insensitive to the iteration order of
the reservation map. -/
theorem gr_determinism (sys₁ sys₂ : ReservationSystem) (now₁ now₂ uid : String)
    (hp : sys₁.reservations.Perm sys₂.reservations)
    (hfl : sys₁.flights = sys₂.flights)
    (hnd : (sys₁.reservations.map (fun p => p.2.reservation_id)).Nodup) :
    process_get_reservations sys₁ now₁ uid = process_get_reservations sys₂ now₂ uid := by
  have hfil : (gr_filter sys₁ uid).Perm (gr_filter sys₂ uid) := List.Perm.filter _ hp
  have hge : gr_entry sys₁ = gr_entry sys₂ := by
    funext p
    simp [gr_entry, hfl]
  have hsorted : gr_sorted sys₁ uid = gr_sorted sys₂ uid := by
    unfold gr_sorted gr_entries
    cases h₁ : optMap (gr_entry sys₁) (gr_filter sys₁ uid) with
    | none =>
      obtain ⟨x, hx, hxn⟩ := optMap_eq_none_iff.mp h₁
      have h₂ : optMap (gr_entry sys₂) (gr_filter sys₂ uid) = none :=
        optMap_eq_none_iff.mpr ⟨x, hfil.mem_iff.mp hx, by rw [← hge]; exact hxn⟩
      rw [h₂]
    | some l₁ =>
      have h₂' : optMap (gr_entry sys₂) (gr_filter sys₂ uid) ≠ none := by
        intro hn
        obtain ⟨x, hx, hxn⟩ := optMap_eq_none_iff.mp hn
        rw [← hge] at hxn
        have hcontra : optMap (gr_entry sys₁) (gr_filter sys₁ uid) = none :=
          optMap_eq_none_iff.mpr ⟨x, hfil.mem_iff.mpr hx, hxn⟩
        rw [h₁] at hcontra
        exact absurd hcontra (by simp)
      cases h₂ : optMap (gr_entry sys₂) (gr_filter sys₂ uid) with
      | none => exact absurd h₂ h₂'
      | some l₂ =>
        have h₂₁ : optMap (gr_entry sys₁) (gr_filter sys₂ uid) = some l₂ := by
          rw [hge]
          exact h₂
        have hperm : l₁.Perm l₂ := optMap_perm hfil h₁ h₂₁
        have hids : (l₁.map (fun e => e.2.1)).Nodup := by
          have hmapeq : l₁.map (fun e => e.2.1)
              = (gr_filter sys₁ uid).map (fun p => p.2.reservation_id) :=
            optMap_map_eq (fun p e hpe => (gr_entry_spec hpe).1) h₁
          rw [hmapeq]
          exact ((List.filter_sublist _).map _).nodup hnd
        simp only [Option.map_some', Option.some.injEq]
        apply perm_sorted_eq
          ((List.perm_insertionSort grLE l₁).trans
            (hperm.trans (List.perm_insertionSort grLE l₂).symm))
          (List.sorted_insertionSort grLE l₁)
          (List.sorted_insertionSort grLE l₂)
        intro a ha b hb hab hba
        have hk := grLE_key_eq hab hba
        have ha' : a ∈ l₁ := (List.perm_insertionSort grLE l₁).mem_iff.mp ha
        have hb' : b ∈ l₁ := (List.perm_insertionSort grLE l₁).mem_iff.mp hb
        exact List.inj_on_of_nodup_map hids ha' hb' hk.2
  unfold process_get_reservations
  rw [hsorted, hfl]

theorem fs_class_lines_congr {sys₁ sys₂ : ReservationSystem}
    (hocc : sys₁.seat_reservations = sys₂.seat_reservations) (date : String)
    (fid : Nat) :
    ∀ (cls : List SeatClass) (idx start_row : Nat),
      fs_class_lines sys₁ date fid cls idx start_row
        = fs_class_lines sys₂ date fid cls idx start_row := by
  have hrc : ∀ d f row, fs_row_count sys₁ d f row = fs_row_count sys₂ d f row := by
    intro d f row
    simp [fs_row_count, is_seat_reserved, hocc]
  intro cls
  induction cls with
  | nil => intro idx start_row; rfl
  | cons sc rest ih =>
    intro idx start_row
    simp only [fs_class_lines, hrc, ih]

/-- `process_flight_search` is insensitive to the iteration order of the
flight map. -/
theorem fs_determinism (sys₁ sys₂ : ReservationSystem) (now₁ now₂ date : String)
    (dep arr : Nat)
    (hp : sys₁.flights.Perm sys₂.flights)
    (hocc : sys₁.seat_reservations = sys₂.seat_reservations)
    (hnd : (sys₁.flights.map (fun p => p.2.flight_id)).Nodup) :
    process_flight_search sys₁ now₁ date dep arr
      = process_flight_search sys₂ now₂ date dep arr := by
  have hent : (fs_entries sys₁ dep arr).Perm (fs_entries sys₂ dep arr) :=
    ((hp.map Prod.snd).filter _).map _
  have hids : ((fs_entries sys₁ dep arr).map (fun e => e.2.1)).Nodup := by
    have hmapeq : (fs_entries sys₁ dep arr).map (fun e => e.2.1)
        = (fs_filter sys₁ dep arr).map (fun f => f.flight_id) := by
      simp [fs_entries, List.map_map]
    rw [hmapeq]
    have hsub : List.Sublist ((fs_filter sys₁ dep arr).map (fun f => f.flight_id))
        ((sys₁.flights.map Prod.snd).map (fun f => f.flight_id)) :=
      (List.filter_sublist _).map _
    have hcomp : (sys₁.flights.map Prod.snd).map (fun f => f.flight_id)
        = sys₁.flights.map (fun p => p.2.flight_id) := by
      simp [List.map_map]
    exact hsub.nodup (hcomp ▸ hnd)
  have hs : fs_sorted sys₁ dep arr = fs_sorted sys₂ dep arr := by
    unfold fs_sorted
    apply perm_sorted_eq
      ((List.perm_insertionSort fsLE _).trans
        (hent.trans (List.perm_insertionSort fsLE _).symm))
      (List.sorted_insertionSort fsLE _)
      (List.sorted_insertionSort fsLE _)
    intro a ha b hb hab hba
    have hk := fsLE_key_eq hab hba
    have ha' : a ∈ fs_entries sys₁ dep arr :=
      (List.perm_insertionSort fsLE _).mem_iff.mp ha
    have hb' : b ∈ fs_entries sys₁ dep arr :=
      (List.perm_insertionSort fsLE _).mem_iff.mp hb
    exact List.inj_on_of_nodup_map hids ha' hb' hk.2
  unfold process_flight_search
  rw [hs]
  simp only [fs_class_lines_congr hocc]

/-- C9: the reservation listing is exactly the caller's active
reservations sorted ascending by (departure instant, reservation id),
the flight search is exactly the route's flights sorted ascending by
(departure-time string, flight id), and both outputs are invariant under
any permutation of the underlying maps' iteration order. -/
theorem c9_query_ordering_determinism :
    (∀ sys uid l, gr_sorted sys uid = some l →
      List.Sorted grLE l ∧
      (∀ e, e ∈ l ↔ ∃ p ∈ sys.reservations, p.2.user_id = uid ∧
        p.2.is_cancelled = false ∧ gr_entry sys p = some e) ∧
      (∀ e ∈ l, e.2.1 = e.2.2.reservation_id ∧ ∃ f,
        alookup sys.flights e.2.2.flight_id = some f ∧
        get_flight_datetime e.2.2.date f = some e.1)) ∧
    (∀ sys₁ sys₂ now₁ now₂ uid, sys₁.reservations.Perm sys₂.reservations →
      sys₁.flights = sys₂.flights →
      (sys₁.reservations.map (fun p => p.2.reservation_id)).Nodup →
      process_get_reservations sys₁ now₁ uid = process_get_reservations sys₂ now₂ uid) ∧
    (∀ sys dep arr,
      List.Sorted fsLE (fs_sorted sys dep arr) ∧
      (∀ e, e ∈ fs_sorted sys dep arr ↔ ∃ f ∈ sys.flights.map Prod.snd,
        f.departure_airport = dep ∧ f.arrival_airport = arr ∧
        e = (f.departure_time, f.flight_id, f))) ∧
    (∀ sys₁ sys₂ now₁ now₂ date dep arr, sys₁.flights.Perm sys₂.flights →
      sys₁.seat_reservations = sys₂.seat_reservations →
      (sys₁.flights.map (fun p => p.2.flight_id)).Nodup →
      process_flight_search sys₁ now₁ date dep arr
        = process_flight_search sys₂ now₂ date dep arr) := by
  refine ⟨?_, gr_determinism, ?_, fs_determinism⟩
  · intro sys uid l hl
    obtain ⟨l₀, he, hmap⟩ := Option.map_eq_some'.mp hl
    subst hmap
    refine ⟨List.sorted_insertionSort _ _, ?_, ?_⟩
    · intro e
      rw [(List.perm_insertionSort grLE l₀).mem_iff, optMap_mem_iff he e]
      constructor
      · rintro ⟨p, hpm, hpe⟩
        rw [gr_filter, List.mem_filter] at hpm
        obtain ⟨hu, hcan⟩ : p.2.user_id = uid ∧ p.2.is_cancelled = false := by
          have := hpm.2
          simp only [Bool.and_eq_true, beq_iff_eq, Bool.not_eq_true'] at this
          exact this
        exact ⟨p, hpm.1, hu, hcan, hpe⟩
      · rintro ⟨p, hpm, hu, hcan, hpe⟩
        refine ⟨p, ?_, hpe⟩
        rw [gr_filter, List.mem_filter]
        exact ⟨hpm, by simp [hu, hcan]⟩
    · intro e hem
      obtain ⟨p, hpm, hpe⟩ :=
        (optMap_mem_iff he e).mp ((List.perm_insertionSort grLE l₀).mem_iff.mp hem)
      obtain ⟨hid, hres, f, hf, hd⟩ := gr_entry_spec hpe
      refine ⟨by rw [hid, hres], f, ?_, ?_⟩
      · rw [hres]
        exact hf
      · rw [hres]
        exact hd
  · intro sys dep arr
    constructor
    · unfold fs_sorted
      exact List.sorted_insertionSort _ _
    · intro e
      unfold fs_sorted
      rw [(List.perm_insertionSort fsLE _).mem_iff]
      simp only [fs_entries, fs_filter, List.mem_map, List.mem_filter,
        Bool.and_eq_true, beq_iff_eq]
      constructor
      · rintro ⟨f, ⟨hfm, hdep, harr⟩, hef⟩
        exact ⟨f, hfm, hdep, harr, hef.symm⟩
      · rintro ⟨f, hfm, hdep, harr, hef⟩
        exact ⟨f, ⟨hfm, hdep, harr⟩, hef.symm⟩

/-- Witness for C9: Alice's two-reservation ledger gives the same output
in either storage order, as does the flight search; the sorted listing
of `sysP1` is ordered by departure instant. -/
theorem c9_query_ordering_determinism_witness :
    process_get_reservations sysP1 "x" "alice" = process_get_reservations sysP2 "y" "alice" ∧
    process_flight_search sysP1 "x" "2024/03/15" 100 200
      = process_flight_search sysP2 "y" "2024/03/15" 100 200 ∧
    List.Sorted grLE [(1710496800, 1, resAlice), (1710583200, 2, resAlice2)] := by
  refine ⟨c9_query_ordering_determinism.2.1 sysP1 sysP2 "x" "y" "alice"
      (by decide) (by decide) (by decide),
    c9_query_ordering_determinism.2.2.2 sysP1 sysP2 "x" "y" "2024/03/15" 100 200
      (by decide) (by decide) (by decide),
    (c9_query_ordering_determinism.1 sysP1 "alice"
      [(1710496800, 1, resAlice), (1710583200, 2, resAlice2)] (by decide)).1⟩

end FlightBooking
